import Mathlib

/-!
# Aluma banking backend — mutation core, shallow embedding

A shallow embedding of the mutation core of the brokerage backend
(order placement and execution, position updates, funding transfers,
admin balance adjustments), translated from the JavaScript controllers:

* `controllers/trading.controller.js`  (placeOrder, modifyOrder)
* `controllers/support.controller.js`  (initiateDeposit, requestWithdrawal,
  internalTransfer, externalTransfer) and the SQL schema pasted in the
  same file (tables, trigger function `update_position_after_trade`)
* `controllers/admin.controller.js`    (creditAccount, debitAccount)
* `config/database.js`                 (the `transaction` helper:
  BEGIN / COMMIT, ROLLBACK on error)

Modelling conventions:

* SQL `DECIMAL` money/price/quantity columns are modelled as `Rat`
  (the JS layer computes in IEEE doubles; all claims are about exact
  decimal arithmetic, so we use exact rationals).
* Database tables are lists of rows; `UPDATE ... WHERE id = $n` is a
  `List.map` that patches every matching row, `INSERT` is an append,
  SQL `SELECT ... WHERE` + `rows[0]` is `List.find?`.
* Row ids are `Nat`.  Timestamps, currency codes, free-text
  descriptions and encrypted bank fields are elided: no claim
  mentions them.
* Each controller function takes the pre-state and returns
  `St × Option AppError`: the post-state together with the error that
  was sent to the client, if any.  Writes that happen before a thrown
  validation error and are outside the `transaction(...)` scope (the
  lazy securities insert in placeOrder) persist in the error state,
  exactly as in the source; everything inside a `transaction(...)`
  callback either commits wholly or is rolled back.
* The price oracle (`marketDataService.getQuote`) is an external
  collaborator; a request carries its answer as an `Option Rat`
  parameter (`none` = the quote call failed / threw).
-/

namespace Aluma

/-- `AppError(message, statusCode)` from `middleware/errorHandler`. -/
structure AppError where
  msg : String
  status : Nat
deriving Repr, DecidableEq

/-- `accounts.status` enum (`account_status`). -/
inductive AccStatus
  | pending | active | suspended | closed
deriving Repr, DecidableEq

/-- A row of the `accounts` table (money columns only). -/
structure Account where
  id : Nat
  userId : Nat
  accountNumber : Nat
  status : AccStatus
  cashBalance : Rat
  buyingPower : Rat
deriving Repr, DecidableEq

/-- A row of the `securities` table. -/
structure Security where
  id : Nat
  symbol : String
  lastPrice : Rat
deriving Repr, DecidableEq

/-- A row of the `positions` table. -/
structure Position where
  accountId : Nat
  securityId : Nat
  quantity : Rat
  averageCost : Rat
  marketValue : Rat
  realizedPl : Rat
deriving Repr, DecidableEq

/-- A row of the `position_history` table (archive of closed positions). -/
structure PositionHist where
  accountId : Nat
  securityId : Nat
  quantity : Rat
  averageCost : Rat
  closePrice : Rat
  realizedPl : Rat
deriving Repr, DecidableEq

/-- `orders.side`. -/
inductive Side
  | buy | sell
deriving Repr, DecidableEq

/-- `orders.order_type`. -/
inductive OrderType
  | market | limit | stop | stopLimit
deriving Repr, DecidableEq

/-- `orders.status`. -/
inductive OrderStatus
  | pending | opn | filled | cancelled | rejected | expired
deriving Repr, DecidableEq

/-- A row of the `orders` table. -/
structure Order where
  id : Nat
  accountId : Nat
  securityId : Nat
  side : Side
  orderType : OrderType
  quantity : Rat
  limitPrice : Option Rat
  stopPrice : Option Rat
  timeInForce : String
  status : OrderStatus
  estimatedValue : Rat
  filledQuantity : Rat
  averagePrice : Option Rat
  filledValue : Option Rat
deriving Repr, DecidableEq

/-- `transactions.type` as written by the mutation core.
`tradeBuy`/`tradeSell` are the strings `trade_buy`/`trade_sell` of
`trading.controller.js`; admin credit/debit rows are written with
types `deposit`/`withdrawal` (`admin.controller.js`); `adjustment`
is written by account opening. -/
inductive TxKind
  | tradeBuy | tradeSell | deposit | withdrawal | transferIn | transferOut | adjustment
deriving Repr, DecidableEq

/-- `transactions.status`. -/
inductive TxStatus
  | pending | processing | completed | failed
deriving Repr, DecidableEq

/-- A `transactions.reference_id` value: in the source these are UUIDs of
deposit or withdrawal rows (or an opaque admin reference string), so
references into different tables never collide; the tag keeps that
property. -/
inductive RefId
  | dep (n : Nat)
  | wdr (n : Nat)
deriving Repr, DecidableEq

/-- A row of the `transactions` ledger table. -/
structure TxRow where
  accountId : Nat
  kind : TxKind
  amount : Rat
  status : TxStatus
  refId : Option RefId := none
deriving Repr, DecidableEq

/-- A row of the `deposits` table. -/
structure DepositRow where
  id : Nat
  accountId : Nat
  bankAccountId : Nat
  amount : Rat
  status : TxStatus
deriving Repr, DecidableEq

/-- A row of the `withdrawals` table. -/
structure WithdrawalRow where
  id : Nat
  accountId : Nat
  bankAccountId : Nat
  amount : Rat
  status : TxStatus
deriving Repr, DecidableEq

/-- A row of the `linked_bank_accounts` table. -/
structure BankAccount where
  id : Nat
  userId : Nat
  isVerified : Bool
deriving Repr, DecidableEq

/-- The durable account-store state: one field per table touched by the
mutation core, plus id counters standing in for the DB-generated ids. -/
structure St where
  accounts : List Account
  positions : List Position
  positionHistory : List PositionHist
  orders : List Order
  transactions : List TxRow
  deposits : List DepositRow
  withdrawals : List WithdrawalRow
  securities : List Security
  bankAccounts : List BankAccount
  kycApproved : List Nat
  nextOrderId : Nat
  nextDepositId : Nat
  nextWithdrawalId : Nat
  nextSecurityId : Nat
deriving Repr, DecidableEq

/-- `UPDATE accounts SET cash_balance = cash_balance + d WHERE id = acctId`
(the source writes `+ $1` or `- $1`; a debit is `d < 0`). -/
def updateCashBalance (accts : List Account) (acctId : Nat) (d : Rat) : List Account :=
  accts.map fun a => if a.id = acctId then { a with cashBalance := a.cashBalance + d } else a

/-- `UPDATE accounts SET cash_balance = cash_balance + d, buying_power =
buying_power + d WHERE id = acctId` (the admin credit/debit update). -/
def adminAdjustBalance (accts : List Account) (acctId : Nat) (d : Rat) : List Account :=
  accts.map fun a =>
    if a.id = acctId then
      { a with cashBalance := a.cashBalance + d, buyingPower := a.buyingPower + d }
    else a

/-- `SELECT * FROM accounts WHERE id = $1 AND user_id = $2 AND status = 'active'`,
taking `rows[0]`. -/
def findActiveAccount (s : St) (acctId userId : Nat) : Option Account :=
  s.accounts.find? fun a =>
    a.id == acctId && a.userId == userId && a.status == AccStatus.active

/-- `SELECT quantity, ... FROM positions WHERE account_id = $1 AND security_id = $2`. -/
def findPosition (ps : List Position) (acctId secId : Nat) : Option Position :=
  ps.find? fun p => p.accountId == acctId && p.securityId == secId

/-- KYC check: `SELECT status FROM user_kyc WHERE user_id = $1` and
`rows[0].status === 'approved'`. -/
def kycOk (s : St) (userId : Nat) : Bool :=
  s.kycApproved.contains userId

/-- The `INSERT INTO positions ... ON CONFLICT (account_id, security_id) DO
UPDATE SET quantity = positions.quantity + q, average_cost = ((positions.quantity *
positions.average_cost) + (q * price)) / (positions.quantity + q), market_value =
(positions.quantity + q) * price` upsert of the market-buy fill
(`trading.controller.js`).  All right-hand sides read the pre-update row. -/
def buyUpsertPosition (ps : List Position) (acctId secId : Nat) (q price : Rat) :
    List Position :=
  match findPosition ps acctId secId with
  | none =>
      ps ++ [{ accountId := acctId, securityId := secId, quantity := q,
               averageCost := price, marketValue := q * price, realizedPl := 0 }]
  | some _ =>
      ps.map fun p =>
        if p.accountId == acctId && p.securityId == secId then
          { p with
            quantity := p.quantity + q,
            averageCost := (p.quantity * p.averageCost + q * price) / (p.quantity + q),
            marketValue := (p.quantity + q) * price }
        else p

/-- The `UPDATE positions SET quantity = quantity - q, market_value =
(quantity - q) * price WHERE account_id = $3 AND security_id = $4` of the
market-sell fill (`trading.controller.js`).  Note: no branch deletes or
archives the row, whatever the resulting quantity. -/
def sellUpdatePosition (ps : List Position) (acctId secId : Nat) (q price : Rat) :
    List Position :=
  ps.map fun p =>
    if p.accountId == acctId && p.securityId == secId then
      { p with quantity := p.quantity - q, marketValue := (p.quantity - q) * price }
    else p

/-- Arguments of `POST /api/v1/trading/orders` (`placeOrder`), after the
auth layer resolved the caller, together with the price-oracle answer for
the requested symbol (`marketDataService.getQuote`). -/
structure OrderReq where
  userId : Nat
  accountId : Nat
  symbol : String
  side : Side
  orderType : OrderType
  quantity : Rat
  limitPrice : Option Rat
  stopPrice : Option Rat
  timeInForce : Option String
  oracle : Option Rat
deriving Repr, DecidableEq

/-- The body of the `transaction(async (client) => ...)` callback in
`placeOrder`: insert the order row in status `pending`; for market orders
set it `filled` and apply balance update, position upsert/decrement and the
ledger insert.  The callback contains no failing statement, so the commit
is unconditional (rollback is unreachable on this path). -/
def placeOrderTx (r : OrderReq) (secId : Nat) (estimatedValue currentPrice : Rat)
    (s : St) : St :=
  let newOrder : Order :=
    { id := s.nextOrderId, accountId := r.accountId, securityId := secId,
      side := r.side, orderType := r.orderType, quantity := r.quantity,
      limitPrice := r.limitPrice, stopPrice := r.stopPrice,
      timeInForce := r.timeInForce.getD "day", status := OrderStatus.pending,
      estimatedValue := estimatedValue, filledQuantity := 0,
      averagePrice := none, filledValue := none }
  if r.orderType = OrderType.market then
    let executedValue := r.quantity * currentPrice
    let filledOrder :=
      { newOrder with
        status := OrderStatus.filled, filledQuantity := r.quantity,
        averagePrice := some currentPrice, filledValue := some executedValue }
    { s with
      orders := s.orders ++ [filledOrder],
      nextOrderId := s.nextOrderId + 1,
      accounts :=
        updateCashBalance s.accounts r.accountId
          (if r.side = Side.buy then -executedValue else executedValue),
      positions :=
        if r.side = Side.buy then
          buyUpsertPosition s.positions r.accountId secId r.quantity currentPrice
        else
          sellUpdatePosition s.positions r.accountId secId r.quantity currentPrice,
      transactions :=
        s.transactions ++
          [{ accountId := r.accountId,
             kind := if r.side = Side.buy then TxKind.tradeBuy else TxKind.tradeSell,
             amount := executedValue, status := TxStatus.completed }] }
  else
    { s with
      orders := s.orders ++ [newOrder],
      nextOrderId := s.nextOrderId + 1 }

/-- `placeOrder` (`trading.controller.js`): ownership + KYC + security
resolution (lazily inserting an unknown symbol from the oracle) +
parameter validation + buying-power / share checks, then the
transactional order insert and (for market orders) the instant fill. -/
def placeOrder (r : OrderReq) (s : St) : St × Option AppError :=
  match findActiveAccount s r.accountId r.userId with
  | none => (s, some ⟨"Account not found or inactive", 404⟩)
  | some account =>
    if ¬ kycOk s r.userId then
      (s, some ⟨"KYC verification required to trade", 403⟩)
    else
      -- security lookup; on miss, fetch from the oracle and INSERT INTO
      -- securities (a plain `query`, outside any transaction scope)
      let secLookup := s.securities.find? fun sec => sec.symbol == r.symbol
      let resolved : St × Option Security :=
        match secLookup with
        | some sec => (s, some sec)
        | none =>
          match r.oracle with
          | none => (s, none)
          | some price =>
            ({ s with
               securities :=
                 s.securities ++ [{ id := s.nextSecurityId, symbol := r.symbol,
                                    lastPrice := price }],
               nextSecurityId := s.nextSecurityId + 1 },
             some { id := s.nextSecurityId, symbol := r.symbol, lastPrice := price })
      match resolved with
      | (s1, none) => (s1, some ⟨"Invalid symbol", 400⟩)
      | (s1, some security) =>
        if r.quantity ≤ 0 then
          (s1, some ⟨"Quantity must be greater than 0", 400⟩)
        else if r.orderType = OrderType.limit ∧
            (r.limitPrice.isNone ∨ r.limitPrice.getD 0 ≤ 0) then
          (s1, some ⟨"Limit price required for limit orders", 400⟩)
        else if (r.orderType = OrderType.stop ∨ r.orderType = OrderType.stopLimit) ∧
            (r.stopPrice.isNone ∨ r.stopPrice.getD 0 ≤ 0) then
          (s1, some ⟨"Stop price required for stop orders", 400⟩)
        else
          -- `getQuote(symbol)` again; a thrown oracle error propagates
          match r.oracle with
          | none => (s1, some ⟨"Market data unavailable", 500⟩)
          | some currentPrice =>
            let estimatedPrice :=
              if r.orderType = OrderType.limit then r.limitPrice.getD 0 else currentPrice
            let estimatedValue := r.quantity * estimatedPrice
            if r.side = Side.buy ∧ account.cashBalance < estimatedValue then
              (s1, some ⟨"Insufficient buying power", 400⟩)
            else
              let currentQuantity :=
                match findPosition s1.positions r.accountId security.id with
                | some p => p.quantity
                | none => 0
              if r.side = Side.sell ∧ currentQuantity < r.quantity then
                (s1, some ⟨"Insufficient shares to sell", 400⟩)
              else
                (placeOrderTx r security.id estimatedValue currentPrice s1, none)

/-- The SQL trigger function `update_position_after_trade()` from the schema
pasted in `support.controller.js` (fires `AFTER UPDATE OF status ON orders`
when the new status is `filled`): the buy branch upserts the position with
the weighted average, the sell branch archives the position into
`position_history` (realized P&L `(fill - average_cost) * quantity`) and
deletes it when the remaining quantity is `≤ 0`, else decrements it.
It reads `NEW.filled_quantity` and `NEW.average_fill_price`; here the order
row supplies them (`averagePrice.getD 0` stands for the column value). -/
def update_position_after_trade (o : Order) (ps : List Position)
    (hist : List PositionHist) : List Position × List PositionHist :=
  if o.status ≠ OrderStatus.filled then (ps, hist)
  else
    let fillPrice := o.averagePrice.getD 0
    match findPosition ps o.accountId o.securityId with
    | none =>
      match o.side with
      | Side.buy =>
          (ps ++ [{ accountId := o.accountId, securityId := o.securityId,
                    quantity := o.filledQuantity, averageCost := fillPrice,
                    marketValue := 0, realizedPl := 0 }], hist)
      | Side.sell => (ps, hist)
    | some cur =>
      match o.side with
      | Side.buy =>
          let newQuantity := cur.quantity + o.filledQuantity
          let newAvgCost :=
            (cur.quantity * cur.averageCost + o.filledQuantity * fillPrice) / newQuantity
          (ps.map fun p =>
            if p.accountId == o.accountId && p.securityId == o.securityId then
              { p with quantity := newQuantity, averageCost := newAvgCost }
            else p, hist)
      | Side.sell =>
          let newQuantity := cur.quantity - o.filledQuantity
          if newQuantity ≤ 0 then
            (ps.filter fun p =>
               ¬ (p.accountId == o.accountId && p.securityId == o.securityId),
             hist ++ [{ accountId := o.accountId, securityId := o.securityId,
                        quantity := cur.quantity, averageCost := cur.averageCost,
                        closePrice := fillPrice,
                        realizedPl := (fillPrice - cur.averageCost) * cur.quantity }])
          else
            (ps.map fun p =>
              if p.accountId == o.accountId && p.securityId == o.securityId then
                { p with quantity := newQuantity,
                         realizedPl := p.realizedPl +
                           (fillPrice - p.averageCost) * o.filledQuantity }
              else p, hist)

/-- `SELECT * FROM linked_bank_accounts WHERE id = $1 AND user_id = $2`. -/
def findBankAccount (s : St) (bankAccountId userId : Nat) : Option BankAccount :=
  s.bankAccounts.find? fun b => b.id == bankAccountId && b.userId == userId

/-- The `transaction(...)` body of `initiateDeposit`: insert the deposit and
its paired ledger row in status `pending`; when `devMode` holds
(`process.env.NODE_ENV === 'development'`) immediately mark both
`completed` and credit the balance. -/
def initiateDepositTx (accountId bankAccountId : Nat) (amount : Rat)
    (devMode : Bool) (s : St) : St :=
  let depositId := s.nextDepositId
  let s1 : St :=
    { s with
      deposits := s.deposits ++
        [{ id := depositId, accountId := accountId, bankAccountId := bankAccountId,
           amount := amount, status := TxStatus.pending }],
      nextDepositId := s.nextDepositId + 1,
      transactions := s.transactions ++
        [{ accountId := accountId, kind := TxKind.deposit, amount := amount,
           status := TxStatus.pending, refId := some (RefId.dep depositId) }] }
  if devMode then
    { s1 with
      deposits := s1.deposits.map fun d =>
        if d.id = depositId then { d with status := TxStatus.completed } else d,
      accounts := updateCashBalance s1.accounts accountId amount,
      transactions := s1.transactions.map fun t =>
        if t.refId = some (RefId.dep depositId) then
          { t with status := TxStatus.completed }
        else t }
  else s1

/-- `initiateDeposit` (`support.controller.js`): account ownership, verified
linked bank account, `0 < amount ≤ 1000000`, then the transactional
deposit + ledger insert (auto-completed in development mode). -/
def initiateDeposit (userId accountId bankAccountId : Nat) (amount : Rat)
    (devMode : Bool) (s : St) : St × Option AppError :=
  match findActiveAccount s accountId userId with
  | none => (s, some ⟨"Account not found or inactive", 404⟩)
  | some _ =>
    match findBankAccount s bankAccountId userId with
    | none => (s, some ⟨"Bank account not found", 404⟩)
    | some bankAccount =>
      if ¬ bankAccount.isVerified then
        (s, some ⟨"Bank account must be verified before deposits", 400⟩)
      else if amount ≤ 0 ∨ 1000000 < amount then
        (s, some ⟨"Invalid deposit amount. Must be between $0.01 and $1,000,000", 400⟩)
      else
        (initiateDepositTx accountId bankAccountId amount devMode s, none)

/-- The `transaction(...)` body of `requestWithdrawal`: insert the withdrawal
row (`pending`), debit the balance immediately (funds held), and insert the
paired ledger row with the negated amount, still `pending`.  The callback
contains no balance or quantity check: it commits unconditionally. -/
def requestWithdrawalTx (accountId bankAccountId : Nat) (amount : Rat) (s : St) : St :=
  let withdrawalId := s.nextWithdrawalId
  { s with
    withdrawals := s.withdrawals ++
      [{ id := withdrawalId, accountId := accountId, bankAccountId := bankAccountId,
         amount := amount, status := TxStatus.pending }],
    nextWithdrawalId := s.nextWithdrawalId + 1,
    accounts := updateCashBalance s.accounts accountId (-amount),
    transactions := s.transactions ++
      [{ accountId := accountId, kind := TxKind.withdrawal, amount := -amount,
         status := TxStatus.pending, refId := some (RefId.wdr withdrawalId) }] }

/-- `requestWithdrawal` (`support.controller.js`): account ownership, verified
bank account, `0 < amount ≤ 1000000`, sufficient cash balance, at most 3
pending/processing withdrawals, then the transactional debit. -/
def requestWithdrawal (userId accountId bankAccountId : Nat) (amount : Rat)
    (s : St) : St × Option AppError :=
  match findActiveAccount s accountId userId with
  | none => (s, some ⟨"Account not found or inactive", 404⟩)
  | some account =>
    match findBankAccount s bankAccountId userId with
    | none => (s, some ⟨"Bank account not found", 404⟩)
    | some bankAccount =>
      if ¬ bankAccount.isVerified then
        (s, some ⟨"Bank account must be verified before withdrawals", 400⟩)
      else if amount ≤ 0 ∨ 1000000 < amount then
        (s, some ⟨"Invalid withdrawal amount. Must be between $0.01 and $1,000,000", 400⟩)
      else if account.cashBalance < amount then
        (s, some ⟨"Insufficient cash balance", 400⟩)
      else if 3 ≤ (s.withdrawals.filter fun w =>
          w.accountId == accountId &&
          (w.status == TxStatus.pending || w.status == TxStatus.processing)).length then
        (s, some ⟨"Maximum pending withdrawals limit reached (3)", 400⟩)
      else
        (requestWithdrawalTx accountId bankAccountId amount s, none)

/-- The `transaction(...)` body shared by `internalTransfer` and
`externalTransfer`: debit the source, credit the destination, and insert the
paired `transfer_out` / `transfer_in` ledger rows (`-amount` / `+amount`),
both already `completed`, in one atomic commit. -/
def transferTx (fromId toId : Nat) (amount : Rat) (s : St) : St :=
  { s with
    accounts :=
      updateCashBalance (updateCashBalance s.accounts fromId (-amount)) toId amount,
    transactions := s.transactions ++
      [{ accountId := fromId, kind := TxKind.transferOut, amount := -amount,
         status := TxStatus.completed },
       { accountId := toId, kind := TxKind.transferIn, amount := amount,
         status := TxStatus.completed }] }

/-- `internalTransfer` (`support.controller.js`): `SELECT * FROM accounts
WHERE id IN ($1, $2) AND user_id = $3 AND status = 'active'` must return
exactly 2 rows (so a same-account transfer fails the row-count check),
then amount and balance validation, then the transactional double update. -/
def internalTransfer (userId fromAccountId toAccountId : Nat) (amount : Rat)
    (s : St) : St × Option AppError :=
  let rows := s.accounts.filter fun a =>
    (a.id == fromAccountId || a.id == toAccountId) &&
    a.userId == userId && a.status == AccStatus.active
  if rows.length ≠ 2 then
    (s, some ⟨"One or both accounts not found", 404⟩)
  else
    match rows.find? (fun a => a.id == fromAccountId) with
    | none => (s, some ⟨"One or both accounts not found", 404⟩)
    | some fromAccount =>
      if amount ≤ 0 then
        (s, some ⟨"Invalid transfer amount", 400⟩)
      else if fromAccount.cashBalance < amount then
        (s, some ⟨"Insufficient balance in source account", 400⟩)
      else
        (transferTx fromAccountId toAccountId amount s, none)

/-- `externalTransfer` (`support.controller.js`): source ownership, recipient
account resolved by account number, explicit same-account rejection, amount
and balance validation, then the same transactional double update. -/
def externalTransfer (userId fromAccountId : Nat) (toAccountNumber : Nat)
    (amount : Rat) (s : St) : St × Option AppError :=
  match findActiveAccount s fromAccountId userId with
  | none => (s, some ⟨"Source account not found or inactive", 404⟩)
  | some fromAccount =>
    match s.accounts.find? (fun a =>
        a.accountNumber == toAccountNumber && a.status == AccStatus.active) with
    | none => (s, some ⟨"Recipient account not found", 404⟩)
    | some toAccount =>
      if fromAccount.id = toAccount.id then
        (s, some ⟨"Cannot transfer to the same account", 400⟩)
      else if amount ≤ 0 then
        (s, some ⟨"Invalid transfer amount", 400⟩)
      else if fromAccount.cashBalance < amount then
        (s, some ⟨"Insufficient balance", 400⟩)
      else
        (transferTx fromAccount.id toAccount.id amount s, none)

/-- `creditAccount` (`admin.controller.js`): positive amount, account must
exist, then `cash_balance += amount`, `buying_power += amount` and a
`completed` ledger row of type `deposit` with the positive amount.
(The two queries run without a `transaction(...)` wrapper.) -/
def creditAccount (accountId : Nat) (amount : Rat) (s : St) : St × Option AppError :=
  if amount ≤ 0 then (s, some ⟨"Invalid amount", 400⟩)
  else
    match s.accounts.find? (fun a => a.id == accountId) with
    | none => (s, some ⟨"Account not found", 404⟩)
    | some _ =>
      ({ s with
         accounts := adminAdjustBalance s.accounts accountId amount,
         transactions := s.transactions ++
           [{ accountId := accountId, kind := TxKind.deposit, amount := amount,
              status := TxStatus.completed }] }, none)

/-- `debitAccount` (`admin.controller.js`): positive amount, account must
exist with sufficient balance, then `cash_balance -= amount`,
`buying_power -= amount` and a `completed` ledger row of type `withdrawal`
carrying the **positive** amount. -/
def debitAccount (accountId : Nat) (amount : Rat) (s : St) : St × Option AppError :=
  if amount ≤ 0 then (s, some ⟨"Invalid amount", 400⟩)
  else
    match s.accounts.find? (fun a => a.id == accountId) with
    | none => (s, some ⟨"Account not found", 404⟩)
    | some account =>
      if account.cashBalance < amount then
        (s, some ⟨"Insufficient balance", 400⟩)
      else
        ({ s with
           accounts := adminAdjustBalance s.accounts accountId (-amount),
           transactions := s.transactions ++
             [{ accountId := accountId, kind := TxKind.withdrawal, amount := amount,
                status := TxStatus.completed }] }, none)

/-- `modifyOrder` (`trading.controller.js`): the order must belong to the
caller and have status `pending` or `open`; each supplied field (quantity,
limit price, stop price) is then stored as-is — no value validation is
re-applied.  `none` models an absent (`undefined`) body field. -/
def modifyOrder (userId orderId : Nat) (quantity limitPrice stopPrice : Option Rat)
    (s : St) : St × Option AppError :=
  match s.orders.find? (fun o => o.id == orderId &&
      ((s.accounts.find? fun a => a.id == o.accountId).map Account.userId == some userId)) with
  | none => (s, some ⟨"Order not found", 404⟩)
  | some order =>
    if ¬ (order.status = OrderStatus.pending ∨ order.status = OrderStatus.opn) then
      (s, some ⟨"Only pending or open orders can be modified", 400⟩)
    else if quantity.isNone ∧ limitPrice.isNone ∧ stopPrice.isNone then
      (s, some ⟨"No valid fields to update", 400⟩)
    else
      ({ s with
         orders := s.orders.map fun o =>
           if o.id = orderId then
             { o with
               quantity := quantity.getD o.quantity,
               limitPrice := match limitPrice with
                             | some lp => some lp
                             | none => o.limitPrice,
               stopPrice := match stopPrice with
                            | some sp => some sp
                            | none => o.stopPrice }
           else o }, none)

/-! ## Ledger reconciliation

`completedAmountSum` is the quantity named by the spec invariant
(`Σ(signed amounts of completed transactions for that account)`).
`effDelta` is the balance effect each kind of ledger row actually has in
the source, read off the write sites: buy fills and admin debits store the
unsigned trade value, withdrawals debit the balance while their row is
still `pending`, deposits credit only once `completed`. -/

/-- The sum the spec invariant speaks about: signed `amount` of the
account's `completed` ledger rows. -/
def completedAmountSum (acct : Nat) (txs : List TxRow) : Rat :=
  ((txs.filter fun t => t.accountId == acct && t.status == TxStatus.completed).map
    TxRow.amount).sum

/-- The cash-balance effect a ledger row has in the source code:
* `trade_buy` rows store `+q*p` but the balance was debited: effect `-amount`;
* `trade_sell` rows store `+q*p` and the balance was credited: `+amount`;
* `deposit` rows credit the balance exactly when they are `completed`;
* `withdrawal` rows debit the balance at request time (user path stores
  `-amount` pending, admin debit stores `+amount` completed): `-|amount|`;
* transfer rows store the signed amount that was applied;
* `adjustment` rows are written with amount 0 at account opening. -/
def effDelta (t : TxRow) : Rat :=
  match t.kind with
  | TxKind.tradeBuy => -t.amount
  | TxKind.tradeSell => t.amount
  | TxKind.deposit => if t.status = TxStatus.completed then t.amount else 0
  | TxKind.withdrawal => -|t.amount|
  | TxKind.transferIn => t.amount
  | TxKind.transferOut => t.amount
  | TxKind.adjustment => t.amount

/-- Sum of the actual balance effects of an account's ledger rows. -/
def ledgerEff (acct : Nat) (txs : List TxRow) : Rat :=
  ((txs.filter fun t => t.accountId == acct).map effDelta).sum

/-- The per-state balance invariant, relative to a map `base` of opening
balances: account ids are unique, and every account's cash balance is
nonnegative and equals its opening balance plus the summed balance
effects of its ledger rows. -/
def BalanceInv (base : Nat → Rat) (s : St) : Prop :=
  (s.accounts.map Account.id).Nodup ∧
  ∀ a ∈ s.accounts, 0 ≤ a.cashBalance ∧
    a.cashBalance = base a.id + ledgerEff a.id s.transactions

/-- Reference freshness: ledger rows only reference deposit / withdrawal ids
that the id counters have already produced (DB-generated UUIDs are fresh). -/
def RefFresh (s : St) : Prop :=
  (∀ t ∈ s.transactions, ∀ n, t.refId = some (RefId.dep n) → n < s.nextDepositId) ∧
  (∀ t ∈ s.transactions, ∀ n, t.refId = some (RefId.wdr n) → n < s.nextWithdrawalId)

/-- One committed mutation of the core, in the sense of the spec: an order
placement (hence possibly a market fill), a deposit, a withdrawal, an
internal or external transfer, or an admin balance adjustment.  The
price-oracle answer of an order request is constrained to be a
nonnegative quote (the oracle is a price feed). -/
inductive Step : St → St → Prop
  | order (r : OrderReq) (s : St) (hp : ∀ p, r.oracle = some p → 0 ≤ p) :
      Step s (placeOrder r s).1
  | deposit (userId accountId bankAccountId : Nat) (amount : Rat) (devMode : Bool)
      (s : St) :
      Step s (initiateDeposit userId accountId bankAccountId amount devMode s).1
  | withdrawal (userId accountId bankAccountId : Nat) (amount : Rat) (s : St) :
      Step s (requestWithdrawal userId accountId bankAccountId amount s).1
  | xferInternal (userId fromAccountId toAccountId : Nat) (amount : Rat) (s : St) :
      Step s (internalTransfer userId fromAccountId toAccountId amount s).1
  | xferExternal (userId fromAccountId toAccountNumber : Nat) (amount : Rat) (s : St) :
      Step s (externalTransfer userId fromAccountId toAccountNumber amount s).1
  | adminCredit (accountId : Nat) (amount : Rat) (s : St) :
      Step s (creditAccount accountId amount s).1
  | adminDebit (accountId : Nat) (amount : Rat) (s : St) :
      Step s (debitAccount accountId amount s).1

/-- Reflexive-transitive closure of `Step`: the states reachable from an
initial state through committed mutations. -/
inductive Reaches : St → St → Prop
  | refl (s : St) : Reaches s s
  | tail {s t u : St} : Reaches s t → Step t u → Reaches s u

/-! ## Concrete states for scenario runs -/

/-- Account 1 of user 10: active, cash balance 10000 (scenario 1). -/
def acct1 : Account :=
  { id := 1, userId := 10, accountNumber := 100001, status := AccStatus.active,
    cashBalance := 10000, buyingPower := 10000 }

/-- Account 2 of user 10: active, cash balance 100 (scenario 3/4). -/
def acct2 : Account :=
  { id := 2, userId := 10, accountNumber := 100002, status := AccStatus.active,
    cashBalance := 100, buyingPower := 100 }

/-- The AAPL security row, last price 150. -/
def aapl : Security := { id := 7, symbol := "AAPL", lastPrice := 150 }

/-- A verified linked bank account of user 10. -/
def bank5 : BankAccount := { id := 5, userId := 10, isVerified := true }

/-- Base demonstration state: user 10 with two active accounts, an approved
KYC record, one known security and one verified bank account; all tables
otherwise empty. -/
def demoSt : St :=
  { accounts := [acct1, acct2], positions := [], positionHistory := [],
    orders := [], transactions := [], deposits := [], withdrawals := [],
    securities := [aapl], bankAccounts := [bank5], kycApproved := [10],
    nextOrderId := 1, nextDepositId := 1, nextWithdrawalId := 1,
    nextSecurityId := 8 }

/-- Scenario 1 request: market buy of 10 AAPL at oracle price 150. -/
def buyReq : OrderReq :=
  { userId := 10, accountId := 1, symbol := "AAPL", side := Side.buy,
    orderType := OrderType.market, quantity := 10, limitPrice := none,
    stopPrice := none, timeInForce := none, oracle := some 150 }

/-- Scenario 2 request: market sell of 10 AAPL at oracle price 160. -/
def sellReq : OrderReq :=
  { userId := 10, accountId := 1, symbol := "AAPL", side := Side.sell,
    orderType := OrderType.market, quantity := 10, limitPrice := none,
    stopPrice := none, timeInForce := none, oracle := some 160 }

/-- Scenario 2 position: account 1 holds 10 AAPL at average cost 150. -/
def posAAPL : Position :=
  { accountId := 1, securityId := 7, quantity := 10, averageCost := 150,
    marketValue := 1500, realizedPl := 0 }

/-- Scenario 2 pre-state: `demoSt` extended with that position. -/
def sellSt : St := { demoSt with positions := [posAAPL] }

/-- A limit buy request: 10 AAPL, limit price 140. -/
def limitReq : OrderReq :=
  { userId := 10, accountId := 1, symbol := "AAPL", side := Side.buy,
    orderType := OrderType.limit, quantity := 10, limitPrice := some 140,
    stopPrice := none, timeInForce := none, oracle := some 150 }

/-! ## Generic lemmas about the store operations -/

theorem ledgerEff_append (acct : Nat) (txs rows : List TxRow) :
    ledgerEff acct (txs ++ rows) = ledgerEff acct txs + ledgerEff acct rows := by
  simp [ledgerEff, List.filter_append]

theorem map_fixed_eq {α : Type} (l : List α) (f : α → α) (h : ∀ x ∈ l, f x = x) :
    l.map f = l := by
  induction l with
  | nil => rfl
  | cons a t ih =>
    simp only [List.map_cons, List.cons.injEq]
    exact ⟨h a (List.mem_cons_self a t), ih fun x hx => h x (List.mem_cons_of_mem a hx)⟩

theorem ids_of_update (accts : List Account) (g : Account → Account) (i : Nat)
    (hg : ∀ a, (g a).id = a.id) :
    ((accts.map fun a => if a.id = i then g a else a).map Account.id) =
      accts.map Account.id := by
  induction accts with
  | nil => rfl
  | cons a t ih =>
    simp only [List.map_cons, ih, List.cons.injEq, and_true]
    split <;> simp [hg]

theorem id_unique {accts : List Account} (hnd : (accts.map Account.id).Nodup)
    {a b : Account} (ha : a ∈ accts) (hb : b ∈ accts) (hid : a.id = b.id) : a = b :=
  List.inj_on_of_nodup_map hnd ha hb hid

theorem findActiveAccount_spec {s : St} {i u : Nat} {a : Account}
    (h : findActiveAccount s i u = some a) :
    a ∈ s.accounts ∧ a.id = i ∧ a.userId = u ∧ a.status = AccStatus.active := by
  have hmem := List.mem_of_find?_eq_some h
  have hpred := List.find?_some h
  simp only [Bool.and_eq_true, beq_iff_eq] at hpred
  exact ⟨hmem, hpred.1.1, hpred.1.2, hpred.2⟩

/-- Commit of a single-account mutation: balances patched by `d` on account
`i`, ledger extended by rows whose summed effect on `i` is `d` and on every
other account is `0`. -/
theorem BalanceInv_commit1 (base : Nat → Rat) (s s' : St) (i : Nat) (d : Rat)
    (rows : List TxRow) (g : Account → Account)
    (hgid : ∀ a, (g a).id = a.id)
    (hgbal : ∀ a, (g a).cashBalance = a.cashBalance + d)
    (ha : s'.accounts = s.accounts.map fun a => if a.id = i then g a else a)
    (ht : s'.transactions = s.transactions ++ rows)
    (hrow : ledgerEff i rows = d)
    (hoth : ∀ j, j ≠ i → ledgerEff j rows = 0)
    (hnn : ∀ a ∈ s.accounts, a.id = i → 0 ≤ a.cashBalance + d)
    (h : BalanceInv base s) : BalanceInv base s' := by
  obtain ⟨hnd, hbal⟩ := h
  constructor
  · rw [ha, ids_of_update _ _ _ hgid]; exact hnd
  · intro a' ha'
    rw [ha] at ha'
    obtain ⟨a, hmem, hEq⟩ := List.mem_map.mp ha'
    obtain ⟨h0, heq⟩ := hbal a hmem
    by_cases hc : a.id = i
    · rw [if_pos hc] at hEq
      subst hEq
      refine ⟨by rw [hgbal]; exact hnn a hmem hc, ?_⟩
      rw [hgbal, hgid, ht, ledgerEff_append, hc, hrow, heq, hc]
      ring
    · rw [if_neg hc] at hEq
      subst hEq
      refine ⟨h0, ?_⟩
      rw [ht, ledgerEff_append, hoth a.id hc, heq]
      ring

/-- Commit of a mutation that does not touch balances and appends ledger
rows of zero effect. -/
theorem BalanceInv_commit0 (base : Nat → Rat) (s s' : St) (rows : List TxRow)
    (ha : s'.accounts = s.accounts)
    (ht : s'.transactions = s.transactions ++ rows)
    (h0 : ∀ j, ledgerEff j rows = 0)
    (h : BalanceInv base s) : BalanceInv base s' := by
  obtain ⟨hnd, hbal⟩ := h
  refine ⟨by rw [ha]; exact hnd, ?_⟩
  intro a ha'
  rw [ha] at ha'
  obtain ⟨hge, heq⟩ := hbal a ha'
  exact ⟨hge, by rw [ht, ledgerEff_append, h0, heq]; ring⟩

theorem BalanceInv_same (base : Nat → Rat) (s s' : St)
    (ha : s'.accounts = s.accounts) (ht : s'.transactions = s.transactions)
    (h : BalanceInv base s) : BalanceInv base s' := by
  obtain ⟨hnd, hbal⟩ := h
  exact ⟨by rw [ha]; exact hnd, by rw [ha, ht]; exact hbal⟩

theorem RefFresh_extend (s s' : St) (rows : List TxRow)
    (ht : s'.transactions = s.transactions ++ rows)
    (hd : s.nextDepositId ≤ s'.nextDepositId)
    (hw : s.nextWithdrawalId ≤ s'.nextWithdrawalId)
    (hrows : ∀ t ∈ rows,
      (∀ n, t.refId = some (RefId.dep n) → n < s'.nextDepositId) ∧
      (∀ n, t.refId = some (RefId.wdr n) → n < s'.nextWithdrawalId))
    (h : RefFresh s) : RefFresh s' := by
  obtain ⟨h1, h2⟩ := h
  constructor
  · intro t ht' n hn
    rw [ht] at ht'
    rcases List.mem_append.mp ht' with hmem | hmem
    · exact lt_of_lt_of_le (h1 t hmem n hn) hd
    · exact (hrows t hmem).1 n hn
  · intro t ht' n hn
    rw [ht] at ht'
    rcases List.mem_append.mp ht' with hmem | hmem
    · exact lt_of_lt_of_le (h2 t hmem n hn) hw
    · exact (hrows t hmem).2 n hn

theorem RefFresh_same (s s' : St)
    (ht : s'.transactions = s.transactions)
    (hd : s.nextDepositId ≤ s'.nextDepositId)
    (hw : s.nextWithdrawalId ≤ s'.nextWithdrawalId)
    (h : RefFresh s) : RefFresh s' := by
  refine RefFresh_extend s s' [] (by rw [ht, List.append_nil]) hd hw ?_ h
  intro t ht'
  exact absurd ht' (List.not_mem_nil t)

/-- The combined inductive invariant: balance reconciliation plus
reference freshness. -/
def Inv (base : Nat → Rat) (s : St) : Prop :=
  BalanceInv base s ∧ RefFresh s

theorem ledgerEff_singleton (j : Nat) (t : TxRow) :
    ledgerEff j [t] = if t.accountId = j then effDelta t else 0 := by
  by_cases h : t.accountId = j <;> simp [ledgerEff, h]

theorem find_by_id_spec {accts : List Account} {i : Nat} {a : Account}
    (h : accts.find? (fun x => x.id == i) = some a) : a ∈ accts ∧ a.id = i := by
  have hmem := List.mem_of_find?_eq_some h
  have hpred := List.find?_some h
  simp only [beq_iff_eq] at hpred
  exact ⟨hmem, hpred⟩

/-! ## Per-operation preservation of the invariant -/

theorem creditAccount_inv (base : Nat → Rat) (accountId : Nat) (amount : Rat)
    (s : St) (h : Inv base s) : Inv base (creditAccount accountId amount s).1 := by
  obtain ⟨hb, hr⟩ := h
  unfold creditAccount
  split
  · exact ⟨hb, hr⟩
  · next hneg =>
    cases hfind : s.accounts.find? (fun a => a.id == accountId) with
    | none => exact ⟨hb, hr⟩
    | some account =>
      dsimp only
      have hpos : 0 < amount := lt_of_not_le hneg
      constructor
      · refine BalanceInv_commit1 base s _ accountId amount _
          (fun a => { a with cashBalance := a.cashBalance + amount,
                             buyingPower := a.buyingPower + amount })
          (fun a => rfl) (fun a => rfl) rfl rfl ?_ ?_ ?_ hb
        · rw [ledgerEff_singleton, if_pos rfl]
          simp [effDelta]
        · intro j hj
          rw [ledgerEff_singleton, if_neg (Ne.symm hj)]
        · intro a hmem _
          have := (hb.2 a hmem).1
          linarith
      · refine RefFresh_extend s _ _ rfl le_rfl le_rfl ?_ hr
        intro t htm
        rw [List.mem_singleton] at htm
        subst htm
        exact ⟨(fun n hn => nomatch hn), (fun n hn => nomatch hn)⟩

theorem debitAccount_inv (base : Nat → Rat) (accountId : Nat) (amount : Rat)
    (s : St) (h : Inv base s) : Inv base (debitAccount accountId amount s).1 := by
  obtain ⟨hb, hr⟩ := h
  unfold debitAccount
  split
  · exact ⟨hb, hr⟩
  · next hneg =>
    cases hfind : s.accounts.find? (fun a => a.id == accountId) with
    | none => exact ⟨hb, hr⟩
    | some account =>
      dsimp only
      have hpos : 0 < amount := lt_of_not_le hneg
      split
      · exact ⟨hb, hr⟩
      · next hbal =>
        obtain ⟨hmemA, hidA⟩ := find_by_id_spec hfind
        constructor
        · refine BalanceInv_commit1 base s _ accountId (-amount) _
            (fun a => { a with cashBalance := a.cashBalance + -amount,
                               buyingPower := a.buyingPower + -amount })
            (fun a => rfl) (fun a => rfl) ?_ rfl ?_ ?_ ?_ hb
          · show adminAdjustBalance s.accounts accountId (-amount) = _
            unfold adminAdjustBalance
            rfl
          · rw [ledgerEff_singleton, if_pos rfl]
            simp [effDelta, abs_of_pos hpos]
          · intro j hj
            rw [ledgerEff_singleton, if_neg (Ne.symm hj)]
          · intro a hmem hid
            have haeq : a = account := id_unique hb.1 hmem hmemA (hid.trans hidA.symm)
            subst haeq
            linarith [not_lt.mp hbal]
        · refine RefFresh_extend s _ _ rfl le_rfl le_rfl ?_ hr
          intro t htm
          rw [List.mem_singleton] at htm
          subst htm
          exact ⟨(fun n hn => nomatch hn), (fun n hn => nomatch hn)⟩

theorem requestWithdrawal_inv (base : Nat → Rat) (userId accountId bankAccountId : Nat)
    (amount : Rat) (s : St) (h : Inv base s) :
    Inv base (requestWithdrawal userId accountId bankAccountId amount s).1 := by
  obtain ⟨hb, hr⟩ := h
  unfold requestWithdrawal
  cases hacc : findActiveAccount s accountId userId with
  | none => exact ⟨hb, hr⟩
  | some account =>
    dsimp only
    cases hbank : findBankAccount s bankAccountId userId with
    | none => exact ⟨hb, hr⟩
    | some bank =>
      dsimp only
      split
      · exact ⟨hb, hr⟩
      split
      · exact ⟨hb, hr⟩
      next hamt =>
      split
      · exact ⟨hb, hr⟩
      next hbal =>
      split
      · exact ⟨hb, hr⟩
      next hcap =>
      push_neg at hamt
      have hpos : 0 < amount := hamt.1
      have hle := not_lt.mp hbal
      obtain ⟨hmemA, hidA, _, _⟩ := findActiveAccount_spec hacc
      constructor
      · refine BalanceInv_commit1 base s _ accountId (-amount) _
          (fun a => { a with cashBalance := a.cashBalance + -amount })
          (fun a => rfl) (fun a => rfl) rfl rfl ?_ ?_ ?_ hb
        · rw [ledgerEff_singleton, if_pos rfl]
          simp [effDelta, abs_of_pos hpos]
        · intro j hj
          rw [ledgerEff_singleton, if_neg (Ne.symm hj)]
        · intro a hmem hid
          have haeq : a = account := id_unique hb.1 hmem hmemA (hid.trans hidA.symm)
          subst haeq
          linarith
      · refine RefFresh_extend s _ _ rfl le_rfl (Nat.le_succ _) ?_ hr
        intro t htm
        rw [List.mem_singleton] at htm
        subst htm
        refine ⟨(fun n hn => nomatch hn), fun n hn => ?_⟩
        have hne : n = s.nextWithdrawalId := by
          injection hn with hn2
          injection hn2 with hn3
          exact hn3.symm
        subst hne
        exact Nat.lt_succ_self _

theorem transferTx_inv (base : Nat → Rat) (fromId toId : Nat) (amount : Rat) (s : St)
    (h : Inv base s) (hpos : 0 < amount)
    (hfrom : ∀ a ∈ s.accounts, a.id = fromId → amount ≤ a.cashBalance) :
    Inv base (transferTx fromId toId amount s) := by
  obtain ⟨hb, hr⟩ := h
  have hmid : BalanceInv base
      { s with accounts := updateCashBalance s.accounts fromId (-amount),
               transactions := s.transactions ++
                 [{ accountId := fromId, kind := TxKind.transferOut, amount := -amount,
                    status := TxStatus.completed }] } := by
    refine BalanceInv_commit1 base s _ fromId (-amount) _
      (fun a => { a with cashBalance := a.cashBalance + -amount })
      (fun a => rfl) (fun a => rfl) rfl rfl ?_ ?_ ?_ hb
    · rw [ledgerEff_singleton, if_pos rfl]
      simp [effDelta]
    · intro j hj
      rw [ledgerEff_singleton, if_neg (Ne.symm hj)]
    · intro a hmem hid
      have := hfrom a hmem hid
      linarith
  constructor
  · refine BalanceInv_commit1 base
      { s with accounts := updateCashBalance s.accounts fromId (-amount),
               transactions := s.transactions ++
                 [{ accountId := fromId, kind := TxKind.transferOut, amount := -amount,
                    status := TxStatus.completed }] }
      (transferTx fromId toId amount s) toId amount
      [{ accountId := toId, kind := TxKind.transferIn, amount := amount,
         status := TxStatus.completed }]
      (fun a => { a with cashBalance := a.cashBalance + amount })
      (fun a => rfl) (fun a => rfl) rfl ?_ ?_ ?_ ?_ hmid
    · show s.transactions ++ _ = (s.transactions ++ _) ++
        [{ accountId := toId, kind := TxKind.transferIn, amount := amount,
           status := TxStatus.completed }]
      rw [List.append_assoc]
      rfl
    · rw [ledgerEff_singleton, if_pos rfl]
      simp [effDelta]
    · intro j hj
      rw [ledgerEff_singleton, if_neg (Ne.symm hj)]
    · intro a hmem _
      have := (hmid.2 a hmem).1
      linarith
  · refine RefFresh_extend s _ _ rfl le_rfl le_rfl ?_ hr
    intro t htm
    rw [List.mem_cons, List.mem_singleton] at htm
    rcases htm with hEq | hEq <;> subst hEq <;>
      exact ⟨(fun n hn => nomatch hn), (fun n hn => nomatch hn)⟩

theorem internalTransfer_inv (base : Nat → Rat) (userId fromAccountId toAccountId : Nat)
    (amount : Rat) (s : St) (h : Inv base s) :
    Inv base (internalTransfer userId fromAccountId toAccountId amount s).1 := by
  obtain ⟨hb, hr⟩ := h
  unfold internalTransfer
  dsimp only
  split
  · exact ⟨hb, hr⟩
  next hlen =>
  cases hfind : (s.accounts.filter fun a =>
      (a.id == fromAccountId || a.id == toAccountId) &&
      a.userId == userId && a.status == AccStatus.active).find?
        (fun a => a.id == fromAccountId) with
  | none => exact ⟨hb, hr⟩
  | some fromAccount =>
    dsimp only
    split
    · exact ⟨hb, hr⟩
    next hamt =>
    split
    · exact ⟨hb, hr⟩
    next hbal =>
    obtain ⟨hmemF, hidF⟩ := find_by_id_spec hfind
    have hmemS : fromAccount ∈ s.accounts := List.mem_of_mem_filter hmemF
    refine transferTx_inv base fromAccountId toAccountId amount s ⟨hb, hr⟩
      (lt_of_not_le hamt) ?_
    intro a hmem hid
    have haeq : a = fromAccount := id_unique hb.1 hmem hmemS (hid.trans hidF.symm)
    subst haeq
    exact not_lt.mp hbal

theorem externalTransfer_inv (base : Nat → Rat) (userId fromAccountId toAccountNumber : Nat)
    (amount : Rat) (s : St) (h : Inv base s) :
    Inv base (externalTransfer userId fromAccountId toAccountNumber amount s).1 := by
  obtain ⟨hb, hr⟩ := h
  unfold externalTransfer
  cases hacc : findActiveAccount s fromAccountId userId with
  | none => exact ⟨hb, hr⟩
  | some fromAccount =>
    dsimp only
    cases hto : s.accounts.find? (fun a =>
        a.accountNumber == toAccountNumber && a.status == AccStatus.active) with
    | none => exact ⟨hb, hr⟩
    | some toAccount =>
      dsimp only
      split
      · exact ⟨hb, hr⟩
      next hsame =>
      split
      · exact ⟨hb, hr⟩
      next hamt =>
      split
      · exact ⟨hb, hr⟩
      next hbal =>
      obtain ⟨hmemF, hidF, _, _⟩ := findActiveAccount_spec hacc
      refine transferTx_inv base fromAccount.id toAccount.id amount s ⟨hb, hr⟩
        (lt_of_not_le hamt) ?_
      intro a hmem hid
      have haeq : a = fromAccount := id_unique hb.1 hmem hmemF hid
      subst haeq
      exact not_lt.mp hbal

theorem initiateDeposit_inv (base : Nat → Rat) (userId accountId bankAccountId : Nat)
    (amount : Rat) (devMode : Bool) (s : St) (h : Inv base s) :
    Inv base (initiateDeposit userId accountId bankAccountId amount devMode s).1 := by
  obtain ⟨hb, hr⟩ := h
  unfold initiateDeposit
  cases hacc : findActiveAccount s accountId userId with
  | none => exact ⟨hb, hr⟩
  | some account =>
    dsimp only
    cases hbank : findBankAccount s bankAccountId userId with
    | none => exact ⟨hb, hr⟩
    | some bank =>
      dsimp only
      split
      · exact ⟨hb, hr⟩
      next hver =>
      split
      · exact ⟨hb, hr⟩
      next hamt =>
      push_neg at hamt
      have hpos : 0 < amount := hamt.1
      unfold initiateDepositTx
      dsimp only
      cases devMode with
      | false =>
        constructor
        · refine BalanceInv_commit0 base s _ _ rfl rfl ?_ hb
          intro j
          rw [ledgerEff_singleton]
          split
          · simp [effDelta]
          · rfl
        · refine RefFresh_extend s _ _ rfl (Nat.le_succ _) le_rfl ?_ hr
          intro t htm
          rw [List.mem_singleton] at htm
          subst htm
          refine ⟨fun n hn => ?_, (fun n hn => nomatch hn)⟩
          have hne : n = s.nextDepositId := by
            injection hn with hn2
            injection hn2 with hn3
            exact hn3.symm
          subst hne
          exact Nat.lt_succ_self _
      | true =>
        have hmapfix : ∀ t ∈ s.transactions,
            (if t.refId = some (RefId.dep s.nextDepositId) then
              { t with status := TxStatus.completed } else t) = t := by
          intro t htm
          rw [if_neg]
          intro hcon
          have := hr.1 t htm s.nextDepositId hcon
          exact lt_irrefl _ this
        have htx : (s.transactions ++
            ([{ accountId := accountId, kind := TxKind.deposit, amount := amount,
                status := TxStatus.pending,
                refId := some (RefId.dep s.nextDepositId) }] : List TxRow)).map
            (fun (t : TxRow) => if t.refId = some (RefId.dep s.nextDepositId) then
              { t with status := TxStatus.completed } else t) =
            s.transactions ++
            [{ accountId := accountId, kind := TxKind.deposit, amount := amount,
               status := TxStatus.completed,
               refId := some (RefId.dep s.nextDepositId) }] := by
          rw [List.map_append, map_fixed_eq s.transactions _ hmapfix]
          simp
        constructor
        · refine BalanceInv_commit1 base s _ accountId amount
            [{ accountId := accountId, kind := TxKind.deposit, amount := amount,
               status := TxStatus.completed,
               refId := some (RefId.dep s.nextDepositId) }]
            (fun a => { a with cashBalance := a.cashBalance + amount })
            (fun a => rfl) (fun a => rfl) rfl ?_ ?_ ?_ ?_ hb
          · exact htx
          · rw [ledgerEff_singleton, if_pos rfl]
            simp [effDelta]
          · intro j hj
            rw [ledgerEff_singleton, if_neg (Ne.symm hj)]
          · intro a hmem _
            have := (hb.2 a hmem).1
            linarith
        · refine RefFresh_extend s _ _ htx (Nat.le_succ _) le_rfl ?_ hr
          intro t htm
          rw [List.mem_singleton] at htm
          subst htm
          refine ⟨fun n hn => ?_, (fun n hn => nomatch hn)⟩
          have hne : n = s.nextDepositId := by
            injection hn with hn2
            injection hn2 with hn3
            exact hn3.symm
          subst hne
          exact Nat.lt_succ_self _

theorem placeOrderTx_inv (base : Nat → Rat) (r : OrderReq) (secId : Nat)
    (estVal p : Rat) (s1 : St) (h : Inv base s1)
    (hq : 0 < r.quantity) (hpp : 0 ≤ p)
    (hbuy : r.orderType = OrderType.market → r.side = Side.buy →
      ∀ a ∈ s1.accounts, a.id = r.accountId → r.quantity * p ≤ a.cashBalance) :
    Inv base (placeOrderTx r secId estVal p s1) := by
  obtain ⟨hb, hr⟩ := h
  unfold placeOrderTx
  dsimp only
  split
  · next hmkt =>
    cases hside : r.side with
    | buy =>
      constructor
      · refine BalanceInv_commit1 base s1 _ r.accountId (-(r.quantity * p))
          [{ accountId := r.accountId, kind := TxKind.tradeBuy,
             amount := r.quantity * p, status := TxStatus.completed }]
          (fun a => { a with cashBalance := a.cashBalance + -(r.quantity * p) })
          (fun a => rfl) (fun a => rfl) rfl rfl ?_ ?_ ?_ hb
        · rw [ledgerEff_singleton, if_pos rfl]
          simp [effDelta]
        · intro j hj
          rw [ledgerEff_singleton, if_neg (Ne.symm hj)]
        · intro a hmem hid
          have := hbuy hmkt hside a hmem hid
          linarith
      · refine RefFresh_extend s1 _ _ rfl le_rfl le_rfl ?_ hr
        intro t htm
        rw [List.mem_singleton] at htm
        subst htm
        exact ⟨(fun n hn => nomatch hn), (fun n hn => nomatch hn)⟩
    | sell =>
      constructor
      · refine BalanceInv_commit1 base s1 _ r.accountId (r.quantity * p)
          [{ accountId := r.accountId, kind := TxKind.tradeSell,
             amount := r.quantity * p, status := TxStatus.completed }]
          (fun a => { a with cashBalance := a.cashBalance + r.quantity * p })
          (fun a => rfl) (fun a => rfl) rfl rfl ?_ ?_ ?_ hb
        · rw [ledgerEff_singleton, if_pos rfl]
          simp [effDelta]
        · intro j hj
          rw [ledgerEff_singleton, if_neg (Ne.symm hj)]
        · intro a hmem _
          have h0 := (hb.2 a hmem).1
          have hvp : 0 ≤ r.quantity * p := mul_nonneg hq.le hpp
          linarith
      · refine RefFresh_extend s1 _ _ rfl le_rfl le_rfl ?_ hr
        intro t htm
        rw [List.mem_singleton] at htm
        subst htm
        exact ⟨(fun n hn => nomatch hn), (fun n hn => nomatch hn)⟩
  · constructor
    · exact BalanceInv_same base s1 _ rfl rfl hb
    · exact RefFresh_same s1 _ rfl le_rfl le_rfl hr

theorem placeOrder_inv (base : Nat → Rat) (r : OrderReq) (s : St)
    (hp : ∀ q, r.oracle = some q → 0 ≤ q)
    (h : Inv base s) : Inv base (placeOrder r s).1 := by
  obtain ⟨hb, hr⟩ := h
  unfold placeOrder
  cases hacc : findActiveAccount s r.accountId r.userId with
  | none => exact ⟨hb, hr⟩
  | some account =>
    dsimp only
    split
    · exact ⟨hb, hr⟩
    next hkyc =>
    obtain ⟨hmemA, hidA, _, _⟩ := findActiveAccount_spec hacc
    cases hsec : s.securities.find? (fun sec => sec.symbol == r.symbol) with
    | some sec =>
      dsimp only
      split
      · exact ⟨hb, hr⟩
      next hqty =>
      split
      · exact ⟨hb, hr⟩
      next hlim =>
      split
      · exact ⟨hb, hr⟩
      next hstop =>
      cases horacle : r.oracle with
      | none => exact ⟨hb, hr⟩
      | some p =>
        dsimp only
        split
        next hlimT =>
          split
          · exact ⟨hb, hr⟩
          next hbp =>
          split
          · exact ⟨hb, hr⟩
          next hsh =>
          refine placeOrderTx_inv base r sec.id _ p s ⟨hb, hr⟩
            (lt_of_not_le hqty) (hp p horacle) ?_
          intro hmkt _ a _ _
          exact absurd (hlimT.symm.trans hmkt) (fun hcon => nomatch hcon)
        next hlimF =>
          split
          · exact ⟨hb, hr⟩
          next hbp =>
          split
          · exact ⟨hb, hr⟩
          next hsh =>
          refine placeOrderTx_inv base r sec.id _ p s ⟨hb, hr⟩
            (lt_of_not_le hqty) (hp p horacle) ?_
          intro _ hside a hmem hid
          have haeq : a = account := id_unique hb.1 hmem hmemA (hid.trans hidA.symm)
          subst haeq
          rw [not_and] at hbp
          exact not_lt.mp (hbp hside)
    | none =>
      cases horacle : r.oracle with
      | none => exact ⟨hb, hr⟩
      | some p =>
        dsimp only
        have hb1 : BalanceInv base { s with securities := s.securities ++ [{ id := s.nextSecurityId, symbol := r.symbol, lastPrice := p }], nextSecurityId := s.nextSecurityId + 1 } :=
          BalanceInv_same base s _ rfl rfl hb
        have hr1 : RefFresh { s with securities := s.securities ++ [{ id := s.nextSecurityId, symbol := r.symbol, lastPrice := p }], nextSecurityId := s.nextSecurityId + 1 } :=
          RefFresh_same s _ rfl le_rfl le_rfl hr
        split
        · exact ⟨hb1, hr1⟩
        next hqty =>
        split
        · exact ⟨hb1, hr1⟩
        next hlim =>
        split
        · exact ⟨hb1, hr1⟩
        next hstop =>
        split
        next hlimT =>
          split
          · exact ⟨hb1, hr1⟩
          next hbp =>
          split
          · exact ⟨hb1, hr1⟩
          next hsh =>
          refine placeOrderTx_inv base r s.nextSecurityId _ p _ ⟨hb1, hr1⟩
            (lt_of_not_le hqty) (hp p horacle) ?_
          intro hmkt _ a _ _
          exact absurd (hlimT.symm.trans hmkt) (fun hcon => nomatch hcon)
        next hlimF =>
          split
          · exact ⟨hb1, hr1⟩
          next hbp =>
          split
          · exact ⟨hb1, hr1⟩
          next hsh =>
          refine placeOrderTx_inv base r s.nextSecurityId _ p _ ⟨hb1, hr1⟩
            (lt_of_not_le hqty) (hp p horacle) ?_
          intro _ hside a hmem hid
          have haeq : a = account := id_unique hb1.1 hmem hmemA (hid.trans hidA.symm)
          subst haeq
          rw [not_and] at hbp
          exact not_lt.mp (hbp hside)

theorem step_inv (base : Nat → Rat) {s t : St} (hst : Step s t) (h : Inv base s) :
    Inv base t := by
  cases hst with
  | order r s hp => exact placeOrder_inv base r s hp h
  | deposit userId accountId bankAccountId amount devMode s =>
      exact initiateDeposit_inv base userId accountId bankAccountId amount devMode s h
  | withdrawal userId accountId bankAccountId amount s =>
      exact requestWithdrawal_inv base userId accountId bankAccountId amount s h
  | xferInternal userId fromAccountId toAccountId amount s =>
      exact internalTransfer_inv base userId fromAccountId toAccountId amount s h
  | xferExternal userId fromAccountId toAccountNumber amount s =>
      exact externalTransfer_inv base userId fromAccountId toAccountNumber amount s h
  | adminCredit accountId amount s => exact creditAccount_inv base accountId amount s h
  | adminDebit accountId amount s => exact debitAccount_inv base accountId amount s h

theorem reaches_inv (base : Nat → Rat) {s0 s : St} (h : Reaches s0 s)
    (h0 : Inv base s0) : Inv base s := by
  induction h with
  | refl => exact h0
  | tail hreach hstep ih => exact step_inv base hstep ih

/-! ## Error results leave the four mutated tables unchanged

For each mutation entry point: either the operation returned no error, or
the accounts, positions, orders and transactions tables of the result are
the input tables (validation errors are raised before the `transaction(...)`
scope opens, and the scope itself cannot fail half-way in the model, just
as `ROLLBACK` discards it in the source). -/

theorem placeOrder_frame (r : OrderReq) (s : St) :
    ((placeOrder r s).1.accounts = s.accounts ∧
     (placeOrder r s).1.positions = s.positions ∧
     (placeOrder r s).1.orders = s.orders ∧
     (placeOrder r s).1.transactions = s.transactions) ∨
    (placeOrder r s).2 = none := by
  unfold placeOrder
  cases hacc : findActiveAccount s r.accountId r.userId with
  | none => exact Or.inl ⟨rfl, rfl, rfl, rfl⟩
  | some account =>
    cases hsec : s.securities.find? (fun sec => sec.symbol == r.symbol) with
    | some sec =>
      dsimp only
      repeat' split
      all_goals first
        | exact Or.inl ⟨rfl, rfl, rfl, rfl⟩
        | exact Or.inr rfl
    | none =>
      cases horacle : r.oracle with
      | none =>
        dsimp only
        repeat' split
        all_goals exact Or.inl ⟨rfl, rfl, rfl, rfl⟩
      | some p =>
        dsimp only
        repeat' split
        all_goals first
          | exact Or.inl ⟨rfl, rfl, rfl, rfl⟩
          | exact Or.inr rfl

theorem initiateDeposit_frame (userId accountId bankAccountId : Nat) (amount : Rat)
    (devMode : Bool) (s : St) :
    ((initiateDeposit userId accountId bankAccountId amount devMode s).1.accounts
        = s.accounts ∧
     (initiateDeposit userId accountId bankAccountId amount devMode s).1.positions
        = s.positions ∧
     (initiateDeposit userId accountId bankAccountId amount devMode s).1.orders
        = s.orders ∧
     (initiateDeposit userId accountId bankAccountId amount devMode s).1.transactions
        = s.transactions) ∨
    (initiateDeposit userId accountId bankAccountId amount devMode s).2 = none := by
  unfold initiateDeposit
  try dsimp only
  repeat' split
  all_goals first
    | exact Or.inl ⟨rfl, rfl, rfl, rfl⟩
    | exact Or.inr rfl

theorem requestWithdrawal_frame (userId accountId bankAccountId : Nat) (amount : Rat)
    (s : St) :
    ((requestWithdrawal userId accountId bankAccountId amount s).1.accounts
        = s.accounts ∧
     (requestWithdrawal userId accountId bankAccountId amount s).1.positions
        = s.positions ∧
     (requestWithdrawal userId accountId bankAccountId amount s).1.orders
        = s.orders ∧
     (requestWithdrawal userId accountId bankAccountId amount s).1.transactions
        = s.transactions) ∨
    (requestWithdrawal userId accountId bankAccountId amount s).2 = none := by
  unfold requestWithdrawal
  try dsimp only
  repeat' split
  all_goals first
    | exact Or.inl ⟨rfl, rfl, rfl, rfl⟩
    | exact Or.inr rfl

theorem internalTransfer_frame (userId fromAccountId toAccountId : Nat) (amount : Rat)
    (s : St) :
    ((internalTransfer userId fromAccountId toAccountId amount s).1.accounts
        = s.accounts ∧
     (internalTransfer userId fromAccountId toAccountId amount s).1.positions
        = s.positions ∧
     (internalTransfer userId fromAccountId toAccountId amount s).1.orders
        = s.orders ∧
     (internalTransfer userId fromAccountId toAccountId amount s).1.transactions
        = s.transactions) ∨
    (internalTransfer userId fromAccountId toAccountId amount s).2 = none := by
  unfold internalTransfer
  try dsimp only
  repeat' split
  all_goals first
    | exact Or.inl ⟨rfl, rfl, rfl, rfl⟩
    | exact Or.inr rfl

theorem externalTransfer_frame (userId fromAccountId toAccountNumber : Nat)
    (amount : Rat) (s : St) :
    ((externalTransfer userId fromAccountId toAccountNumber amount s).1.accounts
        = s.accounts ∧
     (externalTransfer userId fromAccountId toAccountNumber amount s).1.positions
        = s.positions ∧
     (externalTransfer userId fromAccountId toAccountNumber amount s).1.orders
        = s.orders ∧
     (externalTransfer userId fromAccountId toAccountNumber amount s).1.transactions
        = s.transactions) ∨
    (externalTransfer userId fromAccountId toAccountNumber amount s).2 = none := by
  unfold externalTransfer
  try dsimp only
  repeat' split
  all_goals first
    | exact Or.inl ⟨rfl, rfl, rfl, rfl⟩
    | exact Or.inr rfl

theorem creditAccount_frame (accountId : Nat) (amount : Rat) (s : St) :
    ((creditAccount accountId amount s).1.accounts = s.accounts ∧
     (creditAccount accountId amount s).1.positions = s.positions ∧
     (creditAccount accountId amount s).1.orders = s.orders ∧
     (creditAccount accountId amount s).1.transactions = s.transactions) ∨
    (creditAccount accountId amount s).2 = none := by
  unfold creditAccount
  try dsimp only
  repeat' split
  all_goals first
    | exact Or.inl ⟨rfl, rfl, rfl, rfl⟩
    | exact Or.inr rfl

theorem debitAccount_frame (accountId : Nat) (amount : Rat) (s : St) :
    ((debitAccount accountId amount s).1.accounts = s.accounts ∧
     (debitAccount accountId amount s).1.positions = s.positions ∧
     (debitAccount accountId amount s).1.orders = s.orders ∧
     (debitAccount accountId amount s).1.transactions = s.transactions) ∨
    (debitAccount accountId amount s).2 = none := by
  unfold debitAccount
  try dsimp only
  repeat' split
  all_goals first
    | exact Or.inl ⟨rfl, rfl, rfl, rfl⟩
    | exact Or.inr rfl

/-- A `find?` over a list mapped by a key-preserving conditional patch
locates the patched version of the original hit. -/
theorem find?_map_patch {α : Type} (l : List α) (pred : α → Bool) (g : α → α)
    (hg : ∀ x, pred (g x) = pred x) :
    (l.map fun x => if pred x then g x else x).find? pred =
      ((l.find? pred).map fun x => if pred x then g x else x) := by
  induction l with
  | nil => rfl
  | cons a t ih =>
    by_cases ha : pred a = true
    · simp [List.find?_cons, ha, hg]
    · simp [List.find?_cons, ha, hg, ih]

/-! ## Further concrete states -/

/-- Opening balances of `demoSt`: 10000 on account 1, 100 on account 2. -/
def demoBase : Nat → Rat :=
  fun id => if id = 1 then 10000 else if id = 2 then 100 else 0

/-- Scenario 3 request: market buy of 10 shares at oracle price 50 (value
500) on account 2, whose balance is 100. -/
def scenario3Req : OrderReq :=
  { userId := 10, accountId := 2, symbol := "AAPL", side := Side.buy,
    orderType := OrderType.market, quantity := 10, limitPrice := none,
    stopPrice := none, timeInForce := none, oracle := some 50 }

/-! ## Claims -/

/-- Claim C1, as stated, is false on the code: after the committed market
buy fill of scenario 1 (one `Step` from `demoSt`), account 1 holds
cash balance 8500, but its only completed transaction was stored with the
unsigned amount +1500 (`trade_buy`), so opening balance plus the sum of
signed amounts of completed transactions is 11500 ≠ 8500. -/
theorem C1_counterexample :
    Step demoSt (placeOrder buyReq demoSt).1 ∧
    ((placeOrder buyReq demoSt).1.accounts.find? (fun a => a.id == 1)).map
        Account.cashBalance = some 8500 ∧
    completedAmountSum 1 (placeOrder buyReq demoSt).1.transactions = 1500 ∧
    demoBase 1 + completedAmountSum 1 (placeOrder buyReq demoSt).1.transactions ≠
      8500 := by
  refine ⟨Step.order buyReq demoSt ?_, ?_, ?_, ?_⟩
  · intro p hp
    have h2 : some (150 : Rat) = some p := hp
    injection h2 with h3
    subst h3
    norm_num
  · norm_num +decide [placeOrder, placeOrderTx, demoSt, buyReq, findActiveAccount,
      kycOk, findPosition, updateCashBalance, buyUpsertPosition, acct1, acct2, aapl,
      List.find?]
  · norm_num +decide [placeOrder, placeOrderTx, demoSt, buyReq, findActiveAccount,
      kycOk, findPosition, updateCashBalance, buyUpsertPosition, acct1, acct2, aapl,
      List.find?, completedAmountSum]
  · norm_num +decide [placeOrder, placeOrderTx, demoSt, buyReq, findActiveAccount,
      kycOk, findPosition, updateCashBalance, buyUpsertPosition, acct1, acct2, aapl,
      List.find?, completedAmountSum, demoBase]

/-- Claim C1 (amended): at every commit boundary of every mutation of the
core (order fill, deposit, withdrawal, internal/external transfer, admin
credit/debit), every account satisfies `cash_balance ≥ 0`, and
`cash_balance = opening balance + Σ effDelta(row)` over the account's
ledger rows, where `effDelta` negates the unsigned stored amount of
`trade_buy` rows, counts `withdrawal` rows as minus the absolute stored
amount already while pending, counts `deposit` rows only once completed,
and takes sell/transfer rows at their stored signed amount. -/
theorem C1_balance_invariant (base : Nat → Rat) (s0 s : St)
    (h0 : BalanceInv base s0) (hf : RefFresh s0) (h : Reaches s0 s) :
    BalanceInv base s :=
  (reaches_inv base h ⟨h0, hf⟩).1

/-- Witness for C1: the invariant holds of the demonstration state and is
carried through one committed mutation (a development-mode deposit). -/
theorem C1_witness :
    BalanceInv demoBase (initiateDeposit 10 1 5 200 true demoSt).1 :=
  C1_balance_invariant demoBase demoSt (initiateDeposit 10 1 5 200 true demoSt).1
    ⟨by decide,
     by norm_num +decide [demoSt, demoBase, acct1, acct2, ledgerEff]⟩
    ⟨by simp [demoSt], by simp [demoSt]⟩
    (Reaches.tail (Reaches.refl demoSt) (Step.deposit 10 1 5 200 true demoSt))

/-- Claim C4, as stated, is false on the code: the `transaction(...)` body
of `requestWithdrawal` (the Funding Processor mutation), applied inside its
transactional boundary to an account with balance 100 and amount 200,
commits (returns the updated state rather than aborting) and leaves the
account with cash balance −100 < 0. -/
theorem C4_counterexample :
    ((requestWithdrawalTx 2 5 200 demoSt).accounts.find? (fun a => a.id == 2)).map
        Account.cashBalance = some (-100) ∧ ((-100 : Rat) < 0) := by
  refine ⟨?_, by norm_num⟩
  norm_num +decide [requestWithdrawalTx, updateCashBalance, demoSt, acct1, acct2,
    List.find?]

/-- Claim C4 (amended): no balance guard exists inside the transactional
boundary — the withdrawal transaction body debits the account
unconditionally, whatever the resulting balance; rejection of insufficient
withdrawals happens only in the validation run before the transaction,
which returns the untouched state with an error. -/
theorem C4_guard_only_in_validation (accountId bankAccountId : Nat) (amount : Rat)
    (s : St) :
    (∀ a ∈ s.accounts, a.id = accountId →
      { a with cashBalance := a.cashBalance - amount } ∈
        (requestWithdrawalTx accountId bankAccountId amount s).accounts) ∧
    (∀ userId account, findActiveAccount s accountId userId = some account →
      ∀ bank, findBankAccount s bankAccountId userId = some bank →
      bank.isVerified → 0 < amount → amount ≤ 1000000 →
      account.cashBalance < amount →
      requestWithdrawal userId accountId bankAccountId amount s =
        (s, some ⟨"Insufficient cash balance", 400⟩)) := by
  constructor
  · intro a hmem hid
    unfold requestWithdrawalTx updateCashBalance
    dsimp only
    refine List.mem_map.mpr ⟨a, hmem, ?_⟩
    rw [if_pos hid, sub_eq_add_neg]
  · intro userId account hacc bank hbank hver hpos hle hlt
    unfold requestWithdrawal
    rw [hacc]
    dsimp only
    rw [hbank]
    dsimp only
    rw [if_neg (not_not_intro hver)]
    rw [if_neg (not_or.mpr ⟨not_le.mpr hpos, not_lt.mpr hle⟩)]
    rw [if_pos hlt]

/-- Witness for C4 (amended): scenario 4 — withdrawal of 200 on balance
100: the transaction body would commit the debit to −100, and the full
operation rejects it in validation with the state unchanged. -/
theorem C4_witness :
    { acct2 with cashBalance := acct2.cashBalance - 200 } ∈
      (requestWithdrawalTx 2 5 200 demoSt).accounts ∧
    requestWithdrawal 10 2 5 200 demoSt =
      (demoSt, some ⟨"Insufficient cash balance", 400⟩) :=
  ⟨(C4_guard_only_in_validation 2 5 200 demoSt).1 acct2 (by decide) rfl,
   (C4_guard_only_in_validation 2 5 200 demoSt).2 10 acct2 (by decide) bank5
     (by decide) rfl (by norm_num) (by norm_num) (by norm_num [acct2])⟩

/-- Claim C7: every mutation request that returns an error leaves the
account balances, the positions, the orders and the transaction ledger
exactly as they were (validation failures precede any mutation; failures
inside the transactional scope roll back in full). -/
theorem C7_failed_requests_leave_state_unchanged :
    (∀ r s e, (placeOrder r s).2 = some e →
      (placeOrder r s).1.accounts = s.accounts ∧
      (placeOrder r s).1.positions = s.positions ∧
      (placeOrder r s).1.orders = s.orders ∧
      (placeOrder r s).1.transactions = s.transactions) ∧
    (∀ userId accountId bankAccountId amount devMode s e,
      (initiateDeposit userId accountId bankAccountId amount devMode s).2 = some e →
      (initiateDeposit userId accountId bankAccountId amount devMode s).1.accounts
          = s.accounts ∧
      (initiateDeposit userId accountId bankAccountId amount devMode s).1.positions
          = s.positions ∧
      (initiateDeposit userId accountId bankAccountId amount devMode s).1.orders
          = s.orders ∧
      (initiateDeposit userId accountId bankAccountId amount devMode s).1.transactions
          = s.transactions) ∧
    (∀ userId accountId bankAccountId amount s e,
      (requestWithdrawal userId accountId bankAccountId amount s).2 = some e →
      (requestWithdrawal userId accountId bankAccountId amount s).1.accounts
          = s.accounts ∧
      (requestWithdrawal userId accountId bankAccountId amount s).1.positions
          = s.positions ∧
      (requestWithdrawal userId accountId bankAccountId amount s).1.orders
          = s.orders ∧
      (requestWithdrawal userId accountId bankAccountId amount s).1.transactions
          = s.transactions) ∧
    (∀ userId fromAccountId toAccountId amount s e,
      (internalTransfer userId fromAccountId toAccountId amount s).2 = some e →
      (internalTransfer userId fromAccountId toAccountId amount s).1.accounts
          = s.accounts ∧
      (internalTransfer userId fromAccountId toAccountId amount s).1.transactions
          = s.transactions) ∧
    (∀ userId fromAccountId toAccountNumber amount s e,
      (externalTransfer userId fromAccountId toAccountNumber amount s).2 = some e →
      (externalTransfer userId fromAccountId toAccountNumber amount s).1.accounts
          = s.accounts ∧
      (externalTransfer userId fromAccountId toAccountNumber amount s).1.transactions
          = s.transactions) ∧
    (∀ accountId amount s e, (creditAccount accountId amount s).2 = some e →
      (creditAccount accountId amount s).1.accounts = s.accounts ∧
      (creditAccount accountId amount s).1.transactions = s.transactions) ∧
    (∀ accountId amount s e, (debitAccount accountId amount s).2 = some e →
      (debitAccount accountId amount s).1.accounts = s.accounts ∧
      (debitAccount accountId amount s).1.transactions = s.transactions) := by
  refine ⟨?_, ?_, ?_, ?_, ?_, ?_, ?_⟩
  · intro r s e h
    exact (placeOrder_frame r s).resolve_right
      (fun hn => nomatch h.symm.trans hn)
  · intro userId accountId bankAccountId amount devMode s e h
    exact (initiateDeposit_frame userId accountId bankAccountId amount devMode s).resolve_right
      (fun hn => nomatch h.symm.trans hn)
  · intro userId accountId bankAccountId amount s e h
    exact (requestWithdrawal_frame userId accountId bankAccountId amount s).resolve_right
      (fun hn => nomatch h.symm.trans hn)
  · intro userId fromAccountId toAccountId amount s e h
    have hfr := (internalTransfer_frame userId fromAccountId toAccountId amount s).resolve_right
      (fun hn => nomatch h.symm.trans hn)
    exact ⟨hfr.1, hfr.2.2.2⟩
  · intro userId fromAccountId toAccountNumber amount s e h
    have hfr := (externalTransfer_frame userId fromAccountId toAccountNumber amount s).resolve_right
      (fun hn => nomatch h.symm.trans hn)
    exact ⟨hfr.1, hfr.2.2.2⟩
  · intro accountId amount s e h
    have hfr := (creditAccount_frame accountId amount s).resolve_right
      (fun hn => nomatch h.symm.trans hn)
    exact ⟨hfr.1, hfr.2.2.2⟩
  · intro accountId amount s e h
    have hfr := (debitAccount_frame accountId amount s).resolve_right
      (fun hn => nomatch h.symm.trans hn)
    exact ⟨hfr.1, hfr.2.2.2⟩

/-- Witness for C7: scenario 3 — a market buy requiring 500 on balance 100
is rejected with balance, positions, orders and ledger unchanged. -/
theorem C7_witness :
    (placeOrder scenario3Req demoSt).1.accounts = demoSt.accounts ∧
    (placeOrder scenario3Req demoSt).1.positions = demoSt.positions ∧
    (placeOrder scenario3Req demoSt).1.orders = demoSt.orders ∧
    (placeOrder scenario3Req demoSt).1.transactions = demoSt.transactions :=
  C7_failed_requests_leave_state_unchanged.1 scenario3Req demoSt
    ⟨"Insufficient buying power", 400⟩
    (by norm_num +decide [placeOrder, demoSt, scenario3Req, findActiveAccount,
      kycOk, findPosition, acct1, acct2, aapl, List.find?])

/-- A list of accounts with pairwise-distinct ids, filtered by a predicate
that forces a single id, has at most one element. -/
theorem filter_single_id_length {accts : List Account}
    (hnd : (accts.map Account.id).Nodup) (i : Nat) (p : Account → Bool)
    (hp : ∀ a, p a = true → a.id = i) : (accts.filter p).length ≤ 1 := by
  have hsub : (accts.filter p).Sublist accts := List.filter_sublist accts
  have hnd2 : ((accts.filter p).map Account.id).Nodup :=
    List.Nodup.sublist (List.Sublist.map Account.id hsub) hnd
  cases hfl : accts.filter p with
  | nil => simp
  | cons a l =>
    cases l with
    | nil => simp
    | cons b l2 =>
      exfalso
      rw [hfl] at hnd2
      have hm : ∀ x ∈ accts.filter p, p x = true := fun x hx => List.of_mem_filter hx
      have ha : a.id = i := hp a (hm a (by rw [hfl]; exact List.mem_cons_self a _))
      have hbmem : b ∈ accts.filter p := by
        rw [hfl]; exact List.mem_cons_of_mem a (List.mem_cons_self b l2)
      have hb : b.id = i := hp b (hm b hbmem)
      simp only [List.map_cons, List.nodup_cons, List.mem_cons] at hnd2
      exact hnd2.1 (Or.inl (ha.trans hb.symm))

/-- Claim C6: every successful internal or external transfer of amount `a`
appends exactly two ledger rows in one atomic commit — `transfer_out` with
amount `-a` on the source and `transfer_in` with amount `+a` on the
destination, two distinct accounts — and every failed transfer appends
none. -/
theorem C6_transfer_pairing (userId : Nat) (amount : Rat) (s : St)
    (hnd : (s.accounts.map Account.id).Nodup) :
    (∀ fromAccountId toAccountId s1,
      internalTransfer userId fromAccountId toAccountId amount s = (s1, none) →
      fromAccountId ≠ toAccountId ∧
      s1.transactions = s.transactions ++
        [{ accountId := fromAccountId, kind := TxKind.transferOut, amount := -amount,
           status := TxStatus.completed },
         { accountId := toAccountId, kind := TxKind.transferIn, amount := amount,
           status := TxStatus.completed }]) ∧
    (∀ fromAccountId toAccountId s1 e,
      internalTransfer userId fromAccountId toAccountId amount s = (s1, some e) →
      s1.transactions = s.transactions) ∧
    (∀ fromAccountId toAccountNumber s1,
      externalTransfer userId fromAccountId toAccountNumber amount s = (s1, none) →
      ∃ toId, fromAccountId ≠ toId ∧
      s1.transactions = s.transactions ++
        [{ accountId := fromAccountId, kind := TxKind.transferOut, amount := -amount,
           status := TxStatus.completed },
         { accountId := toId, kind := TxKind.transferIn, amount := amount,
           status := TxStatus.completed }]) ∧
    (∀ fromAccountId toAccountNumber s1 e,
      externalTransfer userId fromAccountId toAccountNumber amount s = (s1, some e) →
      s1.transactions = s.transactions) := by
  refine ⟨?_, ?_, ?_, ?_⟩
  · intro fromAccountId toAccountId s1 h
    unfold internalTransfer at h
    dsimp only at h
    split at h
    · injection h with h1 h2; exact nomatch h2
    next hlen =>
    split at h
    · injection h with h1 h2; exact nomatch h2
    split at h
    · injection h with h1 h2; exact nomatch h2
    split at h
    · injection h with h1 h2; exact nomatch h2
    have hs1 : s1 = transferTx fromAccountId toAccountId amount s := by
      injection h with h1 h2; exact h1.symm
    constructor
    · intro hEq
      subst hEq
      apply hlen
      intro hlen2
      have hle : (s.accounts.filter fun a =>
          (a.id == fromAccountId || a.id == fromAccountId) &&
          a.userId == userId && a.status == AccStatus.active).length ≤ 1 := by
        refine filter_single_id_length hnd fromAccountId _ ?_
        intro a ha
        simp only [Bool.and_eq_true, Bool.or_eq_true, beq_iff_eq, or_self] at ha
        exact ha.1.1
      rw [hlen2] at hle
      norm_num at hle
    · rw [hs1]
      rfl
  · intro fromAccountId toAccountId s1 e h
    unfold internalTransfer at h
    dsimp only at h
    split at h
    · injection h with h1 h2; rw [← h1]
    split at h
    · injection h with h1 h2; rw [← h1]
    split at h
    · injection h with h1 h2; rw [← h1]
    split at h
    · injection h with h1 h2; rw [← h1]
    · injection h with h1 h2; exact nomatch h2
  · intro fromAccountId toAccountNumber s1 h
    unfold externalTransfer at h
    cases hacc : findActiveAccount s fromAccountId userId with
    | none => rw [hacc] at h; injection h with h1 h2; exact nomatch h2
    | some fromAccount =>
      rw [hacc] at h
      dsimp only at h
      cases hto : s.accounts.find? (fun a =>
          a.accountNumber == toAccountNumber && a.status == AccStatus.active) with
      | none => rw [hto] at h; injection h with h1 h2; exact nomatch h2
      | some toAccount =>
        rw [hto] at h
        dsimp only at h
        split at h
        · injection h with h1 h2; exact nomatch h2
        next hsame =>
        split at h
        · injection h with h1 h2; exact nomatch h2
        split at h
        · injection h with h1 h2; exact nomatch h2
        have hs1 : s1 = transferTx fromAccount.id toAccount.id amount s := by
          injection h with h1 h2; exact h1.symm
        obtain ⟨_, hidF, _, _⟩ := findActiveAccount_spec hacc
        refine ⟨toAccount.id, ?_, ?_⟩
        · rw [← hidF]
          exact hsame
        · rw [hs1, ← hidF]
          rfl
  · intro fromAccountId toAccountNumber s1 e h
    unfold externalTransfer at h
    cases hacc : findActiveAccount s fromAccountId userId with
    | none => rw [hacc] at h; injection h with h1 h2; rw [← h1]
    | some fromAccount =>
      rw [hacc] at h
      dsimp only at h
      cases hto : s.accounts.find? (fun a =>
          a.accountNumber == toAccountNumber && a.status == AccStatus.active) with
      | none => rw [hto] at h; injection h with h1 h2; rw [← h1]
      | some toAccount =>
        rw [hto] at h
        dsimp only at h
        split at h
        · injection h with h1 h2; rw [← h1]
        split at h
        · injection h with h1 h2; rw [← h1]
        split at h
        · injection h with h1 h2; rw [← h1]
        · injection h with h1 h2; exact nomatch h2

/-- Witness for C6: scenario 5 — internal transfer of 50 from account 1 to
account 2 appends exactly the `-50` / `+50` pair on the two distinct
accounts. -/
theorem C6_witness :
    (1 : Nat) ≠ 2 ∧
    (internalTransfer 10 1 2 50 demoSt).1.transactions = demoSt.transactions ++
      [{ accountId := 1, kind := TxKind.transferOut, amount := -50,
         status := TxStatus.completed },
       { accountId := 2, kind := TxKind.transferIn, amount := 50,
         status := TxStatus.completed }] :=
  (C6_transfer_pairing 10 50 demoSt (by decide)).1 1 2
    (internalTransfer 10 1 2 50 demoSt).1
    (by norm_num +decide [internalTransfer, transferTx, updateCashBalance, demoSt,
      acct1, acct2, List.find?])

/-- Claim C10: a transfer whose source and destination resolve to the same
account fails before any mutation: the internal path fails the two-row
lookup check, the external path fails the explicit same-account check, and
both return the input state untouched. -/
theorem C10_same_account_transfer_rejected (userId accountId : Nat) (amount : Rat)
    (s : St) (hnd : (s.accounts.map Account.id).Nodup) :
    internalTransfer userId accountId accountId amount s =
      (s, some ⟨"One or both accounts not found", 404⟩) ∧
    (∀ fromAccount, findActiveAccount s accountId userId = some fromAccount →
      ∀ toAccountNumber toAccount,
        s.accounts.find? (fun a => a.accountNumber == toAccountNumber &&
          a.status == AccStatus.active) = some toAccount →
        toAccount.id = fromAccount.id →
        externalTransfer userId accountId toAccountNumber amount s =
          (s, some ⟨"Cannot transfer to the same account", 400⟩)) := by
  constructor
  · unfold internalTransfer
    dsimp only
    rw [if_pos]
    intro hlen2
    have hle : (s.accounts.filter fun a =>
        (a.id == accountId || a.id == accountId) &&
        a.userId == userId && a.status == AccStatus.active).length ≤ 1 := by
      refine filter_single_id_length hnd accountId _ ?_
      intro a ha
      simp only [Bool.and_eq_true, Bool.or_eq_true, beq_iff_eq, or_self] at ha
      exact ha.1.1
    rw [hlen2] at hle
    norm_num at hle
  · intro fromAccount hacc toAccountNumber toAccount hto hsame
    unfold externalTransfer
    rw [hacc]
    dsimp only
    rw [hto]
    dsimp only
    rw [if_pos hsame.symm]

/-- Witness for C10: on the demonstration state, transferring from account
1 to itself fails on both paths with the state unchanged. -/
theorem C10_witness :
    internalTransfer 10 1 1 50 demoSt =
      (demoSt, some ⟨"One or both accounts not found", 404⟩) ∧
    externalTransfer 10 1 100001 50 demoSt =
      (demoSt, some ⟨"Cannot transfer to the same account", 400⟩) :=
  ⟨(C10_same_account_transfer_rejected 10 1 50 demoSt (by decide)).1,
   (C10_same_account_transfer_rejected 10 1 50 demoSt (by decide)).2 acct1
     (by decide) 100001 acct1 (by decide) rfl⟩

/-- A request that passes every validation check reaches the transactional
commit: `placeOrder` returns the committed `placeOrderTx` state and no
error. -/
theorem placeOrder_valid_run (r : OrderReq) (s : St) (account : Account)
    (sec : Security) (p : Rat)
    (hacc : findActiveAccount s r.accountId r.userId = some account)
    (hkyc : kycOk s r.userId = true)
    (hsec : s.securities.find? (fun x => x.symbol == r.symbol) = some sec)
    (horacle : r.oracle = some p)
    (hq : 0 < r.quantity)
    (hlimOk : ¬ (r.orderType = OrderType.limit ∧
      (r.limitPrice.isNone ∨ r.limitPrice.getD 0 ≤ 0)))
    (hstopOk : ¬ ((r.orderType = OrderType.stop ∨ r.orderType = OrderType.stopLimit) ∧
      (r.stopPrice.isNone ∨ r.stopPrice.getD 0 ≤ 0)))
    (hbuy : r.side = Side.buy →
      r.quantity * (if r.orderType = OrderType.limit then r.limitPrice.getD 0 else p)
        ≤ account.cashBalance)
    (hsell : r.side = Side.sell →
      r.quantity ≤ (match findPosition s.positions r.accountId sec.id with
                    | some pos => pos.quantity
                    | none => 0)) :
    placeOrder r s =
      (placeOrderTx r sec.id
        (r.quantity *
          (if r.orderType = OrderType.limit then r.limitPrice.getD 0 else p))
        p s, none) := by
  unfold placeOrder
  rw [hacc]
  dsimp only
  rw [if_neg (not_not_intro hkyc), hsec]
  dsimp only
  rw [if_neg (not_le.mpr hq), if_neg hlimOk, if_neg hstopOk, horacle]
  dsimp only
  rw [if_neg (fun hc => absurd hc.2 (not_lt.mpr (hbuy hc.1)))]
  rw [if_neg (fun hc => absurd hc.2 (not_lt.mpr (hsell hc.1)))]

/-- Claim C2, as stated, is false on the code: scenario 1 (buy of 10 at
oracle price 150 on balance 10000) creates its single Transaction row with
the unsigned amount +1500, not the signed amount −1500 = −q·p the claim
requires. -/
theorem C2_counterexample :
    (placeOrder buyReq demoSt).2 = none ∧
    (placeOrder buyReq demoSt).1.transactions.map TxRow.amount = [(1500 : Rat)] ∧
    ((1500 : Rat) ≠ -(10 * 150)) := by
  refine ⟨?_, ?_, by norm_num⟩ <;>
    norm_num +decide [placeOrder, placeOrderTx, demoSt, buyReq, findActiveAccount,
      kycOk, findPosition, updateCashBalance, buyUpsertPosition, acct1, acct2, aapl,
      List.find?]

/-- Claim C2 (amended): a validated market buy of quantity `q` at oracle
price `p` commits with no error, decreases the account's cash balance by
exactly `q·p`, creates the position with quantity `q` and average cost `p`
when absent, otherwise moves it to quantity `old+q` with weighted average
cost `(old·avg + q·p)/(old+q)`, and appends exactly one Transaction row —
of type `trade_buy`, status completed, and **positive** stored amount
`q·p`. -/
theorem C2_market_buy_fill (r : OrderReq) (s : St) (account : Account)
    (sec : Security) (p : Rat)
    (hacc : findActiveAccount s r.accountId r.userId = some account)
    (hkyc : kycOk s r.userId = true)
    (hsec : s.securities.find? (fun x => x.symbol == r.symbol) = some sec)
    (horacle : r.oracle = some p)
    (hmkt : r.orderType = OrderType.market)
    (hside : r.side = Side.buy)
    (hq : 0 < r.quantity)
    (hbp : r.quantity * p ≤ account.cashBalance) :
    (placeOrder r s).2 = none ∧
    (placeOrder r s).1.accounts = s.accounts.map (fun a =>
      if a.id = r.accountId then
        { a with cashBalance := a.cashBalance - r.quantity * p } else a) ∧
    (placeOrder r s).1.transactions = s.transactions ++
      [{ accountId := r.accountId, kind := TxKind.tradeBuy,
         amount := r.quantity * p, status := TxStatus.completed }] ∧
    (findPosition s.positions r.accountId sec.id = none →
      (placeOrder r s).1.positions = s.positions ++
        [{ accountId := r.accountId, securityId := sec.id, quantity := r.quantity,
           averageCost := p, marketValue := r.quantity * p, realizedPl := 0 }]) ∧
    (∀ pos, findPosition s.positions r.accountId sec.id = some pos →
      findPosition (placeOrder r s).1.positions r.accountId sec.id = some
        { pos with
          quantity := pos.quantity + r.quantity,
          averageCost := (pos.quantity * pos.averageCost + r.quantity * p) /
            (pos.quantity + r.quantity),
          marketValue := (pos.quantity + r.quantity) * p }) := by
  have hestp : (if r.orderType = OrderType.limit then r.limitPrice.getD 0 else p) = p :=
    if_neg (fun hc : r.orderType = OrderType.limit =>
      absurd (hmkt.symm.trans hc) (by decide))
  have hrun := placeOrder_valid_run r s account sec p hacc hkyc hsec horacle hq
    (fun hc => absurd (hmkt.symm.trans hc.1) (by decide))
    (fun hc => by
      rcases hc.1 with h1 | h1 <;> exact absurd (hmkt.symm.trans h1) (by decide))
    (fun _ => by rw [hestp]; exact hbp)
    (fun hs => absurd (hside.symm.trans hs) (by decide))
  rw [hestp] at hrun
  refine ⟨by rw [hrun], ?_, ?_, ?_, ?_⟩
  · rw [hrun]
    show (placeOrderTx r sec.id (r.quantity * p) p s).accounts = _
    unfold placeOrderTx
    try dsimp only
    rw [if_pos hmkt]
    try dsimp only
    rw [if_pos hside]
    unfold updateCashBalance
    simp only [sub_eq_add_neg]
  · rw [hrun]
    show (placeOrderTx r sec.id (r.quantity * p) p s).transactions = _
    unfold placeOrderTx
    try dsimp only
    rw [if_pos hmkt]
    try dsimp only
    rw [if_pos hside]
  · intro hnone
    rw [hrun]
    show (placeOrderTx r sec.id (r.quantity * p) p s).positions = _
    unfold placeOrderTx
    try dsimp only
    rw [if_pos hmkt]
    try dsimp only
    rw [if_pos hside]
    unfold buyUpsertPosition
    rw [hnone]
  · intro pos hpos
    rw [hrun]
    show findPosition (placeOrderTx r sec.id (r.quantity * p) p s).positions
      r.accountId sec.id = _
    unfold placeOrderTx
    try dsimp only
    rw [if_pos hmkt]
    try dsimp only
    rw [if_pos hside]
    unfold buyUpsertPosition
    rw [hpos]
    unfold findPosition
    rw [find?_map_patch s.positions
      (fun q => q.accountId == r.accountId && q.securityId == sec.id)
      (fun q => { q with
        quantity := q.quantity + r.quantity,
        averageCost := (q.quantity * q.averageCost + r.quantity * p) /
          (q.quantity + r.quantity),
        marketValue := (q.quantity + r.quantity) * p })
      (fun x => rfl)]
    have hpos2 : s.positions.find?
        (fun q => q.accountId == r.accountId && q.securityId == sec.id) = some pos :=
      hpos
    rw [hpos2, Option.map_some', if_pos (List.find?_some hpos2)]

/-- Witness for C2: scenario 1 on the demonstration state. -/
theorem C2_witness :
    (placeOrder buyReq demoSt).2 = none ∧
    (placeOrder buyReq demoSt).1.transactions = demoSt.transactions ++
      [{ accountId := 1, kind := TxKind.tradeBuy, amount := buyReq.quantity * 150,
         status := TxStatus.completed }] ∧
    (placeOrder buyReq demoSt).1.positions = demoSt.positions ++
      [{ accountId := 1, securityId := 7, quantity := buyReq.quantity,
         averageCost := 150, marketValue := buyReq.quantity * 150,
         realizedPl := 0 }] :=
  let h := C2_market_buy_fill buyReq demoSt acct1 aapl 150 (by decide) (by decide)
    (by decide) rfl rfl rfl (by norm_num [buyReq]) (by norm_num [buyReq, acct1])
  ⟨h.1, h.2.2.1, h.2.2.2.1 (by decide)⟩

/-- Claim C3, as stated, is false on the code: scenario 2 (sell of the full
position of 10 at 160) leaves the live position row in place with quantity
0 — nothing is deleted, nothing is archived into position history. -/
theorem C3_counterexample :
    (placeOrder sellReq sellSt).2 = none ∧
    (placeOrder sellReq sellSt).1.positions.map Position.quantity = [(0 : Rat)] ∧
    (placeOrder sellReq sellSt).1.positionHistory = [] := by
  refine ⟨?_, ?_, ?_⟩ <;>
    norm_num +decide [placeOrder, placeOrderTx, sellSt, posAAPL, demoSt, sellReq,
      findActiveAccount, kycOk, findPosition, updateCashBalance, sellUpdatePosition,
      acct1, acct2, aapl, List.find?]

/-- Claim C3 (amended): a validated market sell of quantity `q` at price
`p` credits the balance by exactly `q·p`, decrements the position quantity
by `q` with `average_cost` unchanged, and — also when the full quantity is
consumed — leaves the live row in place (with quantity 0) and records
nothing into position history: the fill path never archives.  The archive
with realized P&L `(p − average_cost)·q` and deletion of the live row
exists only in the schema trigger function `update_position_after_trade`,
whose sell branch behaves as the claim describes. -/
theorem C3_market_sell_fill (r : OrderReq) (s : St) (account : Account)
    (sec : Security) (p : Rat) (pos : Position)
    (hacc : findActiveAccount s r.accountId r.userId = some account)
    (hkyc : kycOk s r.userId = true)
    (hsec : s.securities.find? (fun x => x.symbol == r.symbol) = some sec)
    (horacle : r.oracle = some p)
    (hmkt : r.orderType = OrderType.market)
    (hside : r.side = Side.sell)
    (hq : 0 < r.quantity)
    (hpos : findPosition s.positions r.accountId sec.id = some pos)
    (hqty : r.quantity ≤ pos.quantity) :
    (placeOrder r s).2 = none ∧
    (placeOrder r s).1.accounts = s.accounts.map (fun a =>
      if a.id = r.accountId then
        { a with cashBalance := a.cashBalance + r.quantity * p } else a) ∧
    (placeOrder r s).1.transactions = s.transactions ++
      [{ accountId := r.accountId, kind := TxKind.tradeSell,
         amount := r.quantity * p, status := TxStatus.completed }] ∧
    findPosition (placeOrder r s).1.positions r.accountId sec.id = some
      { pos with quantity := pos.quantity - r.quantity,
                 marketValue := (pos.quantity - r.quantity) * p } ∧
    (placeOrder r s).1.positionHistory = s.positionHistory ∧
    (∀ (o : Order) (ps : List Position) (hist : List PositionHist) (cur : Position),
      o.status = OrderStatus.filled → o.side = Side.sell →
      findPosition ps o.accountId o.securityId = some cur →
      cur.quantity - o.filledQuantity ≤ 0 →
      (update_position_after_trade o ps hist).2 = hist ++
        [{ accountId := o.accountId, securityId := o.securityId,
           quantity := cur.quantity, averageCost := cur.averageCost,
           closePrice := o.averagePrice.getD 0,
           realizedPl := (o.averagePrice.getD 0 - cur.averageCost) * cur.quantity }] ∧
      findPosition (update_position_after_trade o ps hist).1 o.accountId
        o.securityId = none) := by
  have hestp : (if r.orderType = OrderType.limit then r.limitPrice.getD 0 else p) = p :=
    if_neg (fun hc : r.orderType = OrderType.limit =>
      absurd (hmkt.symm.trans hc) (by decide))
  have hrun := placeOrder_valid_run r s account sec p hacc hkyc hsec horacle hq
    (fun hc => absurd (hmkt.symm.trans hc.1) (by decide))
    (fun hc => by
      rcases hc.1 with h1 | h1 <;> exact absurd (hmkt.symm.trans h1) (by decide))
    (fun hs => absurd (hside.symm.trans hs) (by decide))
    (fun _ => by rw [hpos]; exact hqty)
  rw [hestp] at hrun
  refine ⟨by rw [hrun], ?_, ?_, ?_, ?_, ?_⟩
  · rw [hrun]
    show (placeOrderTx r sec.id (r.quantity * p) p s).accounts = _
    unfold placeOrderTx
    try dsimp only
    rw [if_pos hmkt]
    try dsimp only
    rw [if_neg (fun hc : r.side = Side.buy => absurd (hside.symm.trans hc) (by decide))]
    unfold updateCashBalance
    rfl
  · rw [hrun]
    show (placeOrderTx r sec.id (r.quantity * p) p s).transactions = _
    unfold placeOrderTx
    try dsimp only
    rw [if_pos hmkt]
    try dsimp only
    rw [if_neg (fun hc : r.side = Side.buy => absurd (hside.symm.trans hc) (by decide))]
  · rw [hrun]
    show findPosition (placeOrderTx r sec.id (r.quantity * p) p s).positions
      r.accountId sec.id = _
    unfold placeOrderTx
    try dsimp only
    rw [if_pos hmkt]
    try dsimp only
    rw [if_neg (fun hc : r.side = Side.buy => absurd (hside.symm.trans hc) (by decide))]
    unfold sellUpdatePosition findPosition
    rw [find?_map_patch s.positions
      (fun q => q.accountId == r.accountId && q.securityId == sec.id)
      (fun q => { q with quantity := q.quantity - r.quantity,
                         marketValue := (q.quantity - r.quantity) * p })
      (fun x => rfl)]
    have hpos2 : s.positions.find?
        (fun q => q.accountId == r.accountId && q.securityId == sec.id) = some pos :=
      hpos
    rw [hpos2, Option.map_some', if_pos (List.find?_some hpos2)]
  · rw [hrun]
    show (placeOrderTx r sec.id (r.quantity * p) p s).positionHistory = _
    unfold placeOrderTx
    try dsimp only
    rw [if_pos hmkt]
  · intro o ps hist cur hstatus hsideO hcur hle
    unfold update_position_after_trade
    rw [if_neg (fun hc => hc hstatus)]
    try dsimp only
    rw [hcur]
    try dsimp only
    rw [hsideO]
    try dsimp only
    rw [if_pos hle]
    refine ⟨rfl, ?_⟩
    unfold findPosition
    refine List.find?_eq_none.mpr ?_
    intro x hx
    have hmem := List.mem_filter.mp hx
    intro hpx
    exact (of_decide_eq_true hmem.2) hpx

/-- Witness for C3: scenario 2 on the demonstration state — the balance is
credited, the position row survives with quantity 0, and nothing is
archived. -/
theorem C3_witness :
    (placeOrder sellReq sellSt).2 = none ∧
    findPosition (placeOrder sellReq sellSt).1.positions 1 7 = some
      { posAAPL with quantity := posAAPL.quantity - sellReq.quantity,
                     marketValue := (posAAPL.quantity - sellReq.quantity) * 160 } ∧
    (placeOrder sellReq sellSt).1.positionHistory = sellSt.positionHistory :=
  let h := C3_market_sell_fill sellReq sellSt acct1 aapl 160 posAAPL (by decide)
    (by decide) (by decide) rfl rfl rfl (by norm_num [sellReq]) (by decide)
    (by norm_num [sellReq, posAAPL])
  ⟨h.1, h.2.2.2.1, h.2.2.2.2.1⟩

/-- Claim C5, as stated, is false on the code: an accepted limit order is
created with status `pending` and is never moved to `open` — the claimed
`pending → open` transition does not happen at placement. -/
theorem C5_counterexample :
    (placeOrder limitReq demoSt).2 = none ∧
    (placeOrder limitReq demoSt).1.orders.map Order.status = [OrderStatus.pending] ∧
    OrderStatus.pending ≠ OrderStatus.opn := by
  refine ⟨?_, ?_, by decide⟩ <;>
    norm_num +decide [placeOrder, placeOrderTx, demoSt, limitReq, findActiveAccount,
      kycOk, findPosition, acct1, acct2, aapl, List.find?]

/-- Claim C5 (amended): an accepted limit, stop, or stop-limit order is
inserted with status `pending` and stays `pending` (it is never set to
`open`), and the core never autonomously fills it: placement changes no
balance, no position, and appends no transaction. -/
theorem C5_nonmarket_placement (r : OrderReq) (s : St) (account : Account)
    (sec : Security) (p : Rat)
    (hacc : findActiveAccount s r.accountId r.userId = some account)
    (hkyc : kycOk s r.userId = true)
    (hsec : s.securities.find? (fun x => x.symbol == r.symbol) = some sec)
    (horacle : r.oracle = some p)
    (hnm : r.orderType ≠ OrderType.market)
    (hq : 0 < r.quantity)
    (hlimOk : ¬ (r.orderType = OrderType.limit ∧
      (r.limitPrice.isNone ∨ r.limitPrice.getD 0 ≤ 0)))
    (hstopOk : ¬ ((r.orderType = OrderType.stop ∨ r.orderType = OrderType.stopLimit) ∧
      (r.stopPrice.isNone ∨ r.stopPrice.getD 0 ≤ 0)))
    (hbuy : r.side = Side.buy →
      r.quantity * (if r.orderType = OrderType.limit then r.limitPrice.getD 0 else p)
        ≤ account.cashBalance)
    (hsell : r.side = Side.sell →
      r.quantity ≤ (match findPosition s.positions r.accountId sec.id with
                    | some pos => pos.quantity
                    | none => 0)) :
    (placeOrder r s).2 = none ∧
    (placeOrder r s).1.orders = s.orders ++
      [{ id := s.nextOrderId, accountId := r.accountId, securityId := sec.id,
         side := r.side, orderType := r.orderType, quantity := r.quantity,
         limitPrice := r.limitPrice, stopPrice := r.stopPrice,
         timeInForce := r.timeInForce.getD "day", status := OrderStatus.pending,
         estimatedValue := r.quantity *
           (if r.orderType = OrderType.limit then r.limitPrice.getD 0 else p),
         filledQuantity := 0, averagePrice := none, filledValue := none }] ∧
    OrderStatus.pending ≠ OrderStatus.opn ∧
    (placeOrder r s).1.accounts = s.accounts ∧
    (placeOrder r s).1.positions = s.positions ∧
    (placeOrder r s).1.transactions = s.transactions := by
  have hrun := placeOrder_valid_run r s account sec p hacc hkyc hsec horacle hq
    hlimOk hstopOk hbuy hsell
  refine ⟨by rw [hrun], ?_, by decide, ?_, ?_, ?_⟩
  · rw [hrun]
    show (placeOrderTx r sec.id _ p s).orders = _
    unfold placeOrderTx
    try dsimp only
    rw [if_neg hnm]
  · rw [hrun]
    show (placeOrderTx r sec.id _ p s).accounts = _
    unfold placeOrderTx
    try dsimp only
    rw [if_neg hnm]
  · rw [hrun]
    show (placeOrderTx r sec.id _ p s).positions = _
    unfold placeOrderTx
    try dsimp only
    rw [if_neg hnm]
  · rw [hrun]
    show (placeOrderTx r sec.id _ p s).transactions = _
    unfold placeOrderTx
    try dsimp only
    rw [if_neg hnm]

/-- Witness for C5: the limit order of `limitReq` is accepted and changes
no balance, position or ledger row. -/
theorem C5_witness :
    (placeOrder limitReq demoSt).2 = none ∧
    (placeOrder limitReq demoSt).1.accounts = demoSt.accounts ∧
    (placeOrder limitReq demoSt).1.positions = demoSt.positions ∧
    (placeOrder limitReq demoSt).1.transactions = demoSt.transactions :=
  let h := C5_nonmarket_placement limitReq demoSt acct1 aapl 150 (by decide)
    (by decide) (by decide) rfl (by decide) (by norm_num [limitReq])
    (by norm_num +decide [limitReq]) (by norm_num +decide [limitReq])
    (fun _ => by norm_num +decide [limitReq, acct1])
    (fun hs => absurd hs (by decide))
  ⟨h.1, h.2.2.2.1, h.2.2.2.2.1, h.2.2.2.2.2⟩

/-- Claim C8, as stated, is false on the code: outside development mode
(`NODE_ENV !== 'development'`), a fully valid deposit is created `pending`
and stays `pending` — nothing is marked completed and the balance is not
credited. -/
theorem C8_counterexample :
    (initiateDeposit 10 1 5 200 false demoSt).2 = none ∧
    (initiateDeposit 10 1 5 200 false demoSt).1.deposits.map DepositRow.status =
      [TxStatus.pending] ∧
    (initiateDeposit 10 1 5 200 false demoSt).1.accounts = demoSt.accounts := by
  refine ⟨?_, ?_, ?_⟩ <;>
    norm_num +decide [initiateDeposit, initiateDepositTx, demoSt, findActiveAccount,
      findBankAccount, acct1, acct2, bank5, List.find?]

/-- Claim C8 (amended): a deposit with a verified linked bank account and
`0 < amount ≤ 1000000` creates the Deposit row and its paired Transaction
row in status `pending`; only when the development-mode policy is active
are both immediately marked completed and the balance credited by the
amount — otherwise both remain pending and the balance is unchanged.
Out-of-bound amounts are rejected with no state change. -/
theorem C8_deposit_policy (userId accountId bankAccountId : Nat) (amount : Rat)
    (devMode : Bool) (s : St) (account : Account) (bank : BankAccount)
    (hacc : findActiveAccount s accountId userId = some account)
    (hbank : findBankAccount s bankAccountId userId = some bank)
    (hver : bank.isVerified)
    (h0 : 0 < amount) (hceil : amount ≤ 1000000)
    (hfreshTx : ∀ t ∈ s.transactions, t.refId ≠ some (RefId.dep s.nextDepositId))
    (hfreshDep : ∀ d ∈ s.deposits, d.id ≠ s.nextDepositId) :
    (initiateDeposit userId accountId bankAccountId amount devMode s).2 = none ∧
    (devMode = true →
      (initiateDeposit userId accountId bankAccountId amount devMode s).1.deposits =
        s.deposits ++
          [{ id := s.nextDepositId, accountId := accountId,
             bankAccountId := bankAccountId, amount := amount,
             status := TxStatus.completed }] ∧
      (initiateDeposit userId accountId bankAccountId amount devMode s).1.transactions =
        s.transactions ++
          [{ accountId := accountId, kind := TxKind.deposit, amount := amount,
             status := TxStatus.completed,
             refId := some (RefId.dep s.nextDepositId) }] ∧
      (initiateDeposit userId accountId bankAccountId amount devMode s).1.accounts =
        s.accounts.map (fun a => if a.id = accountId then
          { a with cashBalance := a.cashBalance + amount } else a)) ∧
    (devMode = false →
      (initiateDeposit userId accountId bankAccountId amount devMode s).1.deposits =
        s.deposits ++
          [{ id := s.nextDepositId, accountId := accountId,
             bankAccountId := bankAccountId, amount := amount,
             status := TxStatus.pending }] ∧
      (initiateDeposit userId accountId bankAccountId amount devMode s).1.transactions =
        s.transactions ++
          [{ accountId := accountId, kind := TxKind.deposit, amount := amount,
             status := TxStatus.pending,
             refId := some (RefId.dep s.nextDepositId) }] ∧
      (initiateDeposit userId accountId bankAccountId amount devMode s).1.accounts =
        s.accounts) ∧
    (∀ amount2 : Rat, amount2 ≤ 0 ∨ 1000000 < amount2 →
      initiateDeposit userId accountId bankAccountId amount2 devMode s =
        (s, some ⟨"Invalid deposit amount. Must be between $0.01 and $1,000,000",
          400⟩)) := by
  have hrun : initiateDeposit userId accountId bankAccountId amount devMode s =
      (initiateDepositTx accountId bankAccountId amount devMode s, none) := by
    unfold initiateDeposit
    rw [hacc]
    dsimp only
    rw [hbank]
    dsimp only
    rw [if_neg (not_not_intro hver),
        if_neg (not_or.mpr ⟨not_le.mpr h0, not_lt.mpr hceil⟩)]
  refine ⟨by rw [hrun], ?_, ?_, ?_⟩
  · intro hdev
    subst hdev
    rw [hrun]
    unfold initiateDepositTx
    dsimp only
    refine ⟨?_, ?_, rfl⟩
    · show (s.deposits ++ _).map _ = _
      rw [List.map_append,
        map_fixed_eq s.deposits _ (fun d hd => if_neg (hfreshDep d hd))]
      simp
    · show (s.transactions ++ _).map _ = _
      rw [List.map_append,
        map_fixed_eq s.transactions _ (fun t ht => if_neg (hfreshTx t ht))]
      simp
  · intro hdev
    subst hdev
    rw [hrun]
    unfold initiateDepositTx
    dsimp only
    exact ⟨rfl, rfl, rfl⟩
  · intro amount2 hbad
    unfold initiateDeposit
    rw [hacc]
    dsimp only
    rw [hbank]
    dsimp only
    rw [if_neg (not_not_intro hver), if_pos hbad]

/-- Witness for C8: a development-mode deposit of 200 on account 1 —
created pending, immediately completed, balance credited. -/
theorem C8_witness :
    (initiateDeposit 10 1 5 200 true demoSt).2 = none ∧
    (initiateDeposit 10 1 5 200 true demoSt).1.deposits = demoSt.deposits ++
      [{ id := 1, accountId := 1, bankAccountId := 5, amount := 200,
         status := TxStatus.completed }] ∧
    (initiateDeposit 10 1 5 200 true demoSt).1.accounts = demoSt.accounts.map
      (fun a => if a.id = 1 then { a with cashBalance := a.cashBalance + 200 }
       else a) :=
  let h := C8_deposit_policy 10 1 5 200 true demoSt acct1 bank5 (by decide)
    (by decide) rfl (by norm_num) (by norm_num) (by simp [demoSt]) (by simp [demoSt])
  ⟨h.1, (h.2.1 rfl).1, (h.2.1 rfl).2.2⟩

/-- An open (resting) limit order used by the C9 scenario. -/
def openOrd : Order :=
  { id := 3, accountId := 1, securityId := 7, side := Side.buy,
    orderType := OrderType.limit, quantity := 5, limitPrice := some 10,
    stopPrice := none, timeInForce := "day", status := OrderStatus.opn,
    estimatedValue := 50, filledQuantity := 0, averagePrice := none,
    filledValue := none }

/-- `demoSt` with the open order on the books. -/
def ordSt : St := { demoSt with orders := [openOrd] }

/-- Claim C9: for an order in status pending or open owned by the caller,
`modifyOrder` accepts and stores any supplied quantity, limit price, or
stop price without re-applying the placement-time validation; in
particular the concrete modification setting quantity −5 on an open order
is accepted and stored. -/
theorem C9_modify_without_validation (userId orderId : Nat)
    (quantity limitPrice stopPrice : Option Rat) (s : St) (order : Order)
    (hord : s.orders.find? (fun o => o.id == orderId &&
      ((s.accounts.find? fun a => a.id == o.accountId).map Account.userId ==
        some userId)) = some order)
    (hstatus : order.status = OrderStatus.pending ∨ order.status = OrderStatus.opn)
    (hsome : ¬ (quantity.isNone ∧ limitPrice.isNone ∧ stopPrice.isNone)) :
    (modifyOrder userId orderId quantity limitPrice stopPrice s).2 = none ∧
    (modifyOrder userId orderId quantity limitPrice stopPrice s).1.orders =
      s.orders.map (fun o => if o.id = orderId then
        { o with quantity := quantity.getD o.quantity,
                 limitPrice := match limitPrice with
                               | some lp => some lp
                               | none => o.limitPrice,
                 stopPrice := match stopPrice with
                              | some sp => some sp
                              | none => o.stopPrice } else o) ∧
    ((modifyOrder 10 3 (some (-5)) none none ordSt).2 = none ∧
     (modifyOrder 10 3 (some (-5)) none none ordSt).1.orders.map Order.quantity =
       [(-5 : Rat)] ∧ ((-5 : Rat) ≤ 0)) := by
  have hrun : (modifyOrder userId orderId quantity limitPrice stopPrice s) =
      ({ s with orders := s.orders.map (fun o => if o.id = orderId then
          { o with quantity := quantity.getD o.quantity,
                   limitPrice := match limitPrice with
                                 | some lp => some lp
                                 | none => o.limitPrice,
                   stopPrice := match stopPrice with
                                | some sp => some sp
                                | none => o.stopPrice } else o) }, none) := by
    unfold modifyOrder
    rw [hord]
    dsimp only
    rw [if_neg (not_not_intro hstatus), if_neg hsome]
    cases limitPrice <;> cases stopPrice <;> rfl
  refine ⟨by rw [hrun], by rw [hrun], ?_, ?_, by norm_num⟩
  · norm_num +decide [modifyOrder, ordSt, demoSt, openOrd, acct1, acct2, List.find?]
  · norm_num +decide [modifyOrder, ordSt, demoSt, openOrd, acct1, acct2, List.find?]

/-- Witness for C9: the open limit order of `ordSt` modified to quantity 7
— stored as supplied, no error. -/
theorem C9_witness :
    (modifyOrder 10 3 (some 7) none none ordSt).2 = none ∧
    (modifyOrder 10 3 (some 7) none none ordSt).1.orders =
      ordSt.orders.map (fun o => if o.id = 3 then
        { o with quantity := (some (7 : Rat)).getD o.quantity,
                 limitPrice := o.limitPrice, stopPrice := o.stopPrice } else o) :=
  let h := C9_modify_without_validation 10 3 (some 7) none none ordSt openOrd
    (by decide) (Or.inr rfl) (by simp)
  ⟨h.1, h.2.1⟩

end Aluma
